import Mathlib

/-!
Shallow embedding of the ability/feature extraction engine of the
draw-steel-data-md repository (scripts/parse_helpers.py,
scripts/parse_abilities.py, scripts/parse_features.py), together with
theorems settling the frozen claims about its specification.

Python strings are modelled as `List Char`; Python regular expressions are
modelled by a small backtracking engine (`RE`, `reM`) whose search order
mirrors CPython's `re` module (leftmost start position, left alternative
first, greedy/lazy quantifier order, last capture of a group wins).
Character classes `\w` and `\s` are modelled at ASCII granularity (the
repository's own grammar tokens are ASCII; the unicode characters that do
occur in the data, such as `≤`, `–` and the emoji markers, are neither word
nor space characters in Python, matching this model).
-/

namespace DrawSteel

/-- ASCII lower-casing, as used by Python `str.lower` on the ASCII range. -/
def toLowerC (c : Char) : Char :=
  if 'A' ≤ c ∧ c ≤ 'Z' then Char.ofNat (c.toNat + 32) else c

/-- ASCII upper-casing, as used by Python `str.upper` on the ASCII range. -/
def toUpperC (c : Char) : Char :=
  if 'a' ≤ c ∧ c ≤ 'z' then Char.ofNat (c.toNat - 32) else c

/-- Python whitespace (`str.strip`, regex `\s`), ASCII part. -/
def pyIsSpace (c : Char) : Bool :=
  c == ' ' || c == '\t' || c == '\n' || c == '\r' || c == '\x0b' || c == '\x0c'

def isAsciiAlpha (c : Char) : Bool :=
  ('a' ≤ c && c ≤ 'z') || ('A' ≤ c && c ≤ 'Z')

def isDigitC (c : Char) : Bool :=
  '0' ≤ c && c ≤ '9'

/-- Regex `\w` (ASCII part). -/
def isWordC (c : Char) : Bool :=
  isAsciiAlpha c || isDigitC c || c == '_'

def lowerL (l : List Char) : List Char := l.map toLowerC

def upperL (l : List Char) : List Char := l.map toUpperC

/-- Python `str.strip()` (strip whitespace from both ends). -/
def stripWS (l : List Char) : List Char :=
  ((l.dropWhile pyIsSpace).reverse.dropWhile pyIsSpace).reverse

/-- Python `str.rstrip(cs)` for a set of characters. -/
def rstripChars (p : Char → Bool) (l : List Char) : List Char :=
  (l.reverse.dropWhile p).reverse

/-- Python `str.strip(cs)` for a set of characters. -/
def stripChars (p : Char → Bool) (l : List Char) : List Char :=
  ((l.dropWhile p).reverse.dropWhile p).reverse

/-- Is `needle` a contiguous sublist of `hay` (Python `in` on strings)? -/
def containsSub (hay needle : List Char) : Bool :=
  match hay with
  | [] => needle.isEmpty
  | _ :: t => needle.isPrefixOf hay || containsSub t needle

/-- First index at which `needle` occurs in `hay` (Python `str.find`). -/
def findSub (hay needle : List Char) : Option Nat :=
  match hay with
  | [] => if needle.isEmpty then some 0 else none
  | _ :: t =>
    if needle.isPrefixOf hay then some 0
    else (findSub t needle).map (· + 1)

/-- Python `str.split(sep)` for a single-character separator (keeps empties). -/
def splitOnChar (sep : Char) (l : List Char) : List (List Char) :=
  match l with
  | [] => [[]]
  | c :: t =>
    let r := splitOnChar sep t
    if c == sep then [] :: r
    else
      match r with
      | [] => [[c]]
      | h :: t2 => (c :: h) :: t2

/-- Python `str.split()` with no argument: split on whitespace runs, no empties. -/
def splitWS (l : List Char) : List (List Char) :=
  match l with
  | [] => []
  | c :: t =>
    if pyIsSpace c then splitWS t
    else
      match splitWS t with
      | [] => [[c]]
      | h :: t2 =>
        match t with
        | [] => [[c]]
        | c2 :: _ => if pyIsSpace c2 then [c] :: h :: t2 else (c :: h) :: t2

/-- Python `str.splitlines()`-style split on a separator char, here used for
`split('\n')` (keeps empties), same as `splitOnChar`. -/
def splitNL (l : List Char) : List (List Char) := splitOnChar '\n' l

/-- Python single-character `str.replace(a, b)`. -/
def replaceChar (a b : Char) (l : List Char) : List Char :=
  l.map (fun c => if c == a then b else c)

/-- Python `str.replace(needle, "")` removing every occurrence of `needle`. -/
def removeSubF (needle : List Char) : Nat → List Char → List Char
  | 0, l => l
  | _, [] => []
  | f + 1, c :: t =>
    if needle ≠ [] ∧ needle.isPrefixOf (c :: t) then
      removeSubF needle f ((c :: t).drop needle.length)
    else c :: removeSubF needle f t

def removeSub (needle : List Char) (l : List Char) : List Char :=
  removeSubF needle l.length l

/-- Python `int(s)` on decimal strings: optional surrounding whitespace,
optional sign, one or more digits (underscore grouping is not used in this
data). Returns `none` when Python would raise `ValueError`. -/
def pyToInt (l : List Char) : Option Int :=
  let s := stripWS l
  let (sign, digits) :=
    match s with
    | '-' :: r => ((-1 : Int), r)
    | '+' :: r => ((1 : Int), r)
    | r => ((1 : Int), r)
  if digits ≠ [] ∧ digits.all isDigitC then
    some (sign * (Int.ofNat (digits.foldl (fun a c => a * 10 + (c.toNat - '0'.toNat)) 0)))
  else none

/-- Digits-only string to `Nat` (used where the regex guarantees `\d+`). -/
def digitsToNat (l : List Char) : Nat :=
  l.foldl (fun a c => a * 10 + (c.toNat - '0'.toNat)) 0

/-! ### A backtracking regular-expression engine

The constructors cover exactly the features used by the repository's
patterns: character classes, concatenation, alternation, greedy and lazy
stars, numbered capture groups, lookahead, word boundary `\b`, `\Z`, `$`
(no MULTILINE) and `^` (MULTILINE). `.` is encoded as a class (with or
without newline according to DOTALL). -/

inductive RE where
  | eps : RE
  | cls : (Char → Bool) → RE
  | seq : RE → RE → RE
  | alt : RE → RE → RE
  | star : Bool → RE → RE
  | grp : Nat → RE → RE
  | look : RE → RE
  | wb : RE
  | eos : RE
  | dollar : RE
  | bolM : RE

/-- Capture list: (group index, start, stop), most recent first. -/
abbrev Caps := List (Nat × Nat × Nat)

def isWordAt (s : List Char) (i : Nat) : Bool :=
  match s.get? i with
  | some c => isWordC c
  | none => false

def atWB (s : List Char) (i : Nat) : Bool :=
  (if i = 0 then false else isWordAt s (i - 1)) != isWordAt s i

/-- One layer of the matcher, continuation-passing style, structurally
recursive on the regex; `unroll` performs one more star iteration at the
next-smaller fuel level.  Alternation tries the left branch first, a greedy
star tries the body first, a lazy star tries the continuation first —
CPython's backtracking order.  A star iteration that consumes nothing
terminates the loop (greedy) or fails that branch (lazy), as in CPython.
Lookahead does not keep captures; none of the embedded patterns capture
inside a lookahead. -/
def reGo (s : List Char)
    (unroll : RE → Nat → Caps → (Nat → Caps → Option (Nat × Caps)) → Option (Nat × Caps)) :
    RE → Nat → Caps → (Nat → Caps → Option (Nat × Caps)) → Option (Nat × Caps)
  | .eps, i, cs, k => k i cs
  | .cls p, i, cs, k =>
    match s.get? i with
    | some c => if p c then k (i + 1) cs else none
    | none => none
  | .seq a b, i, cs, k => reGo s unroll a i cs (fun j cs2 => reGo s unroll b j cs2 k)
  | .alt a b, i, cs, k =>
    match reGo s unroll a i cs k with
    | some r => some r
    | none => reGo s unroll b i cs k
  | .star lz a, i, cs, k =>
    if lz then
      match k i cs with
      | some r => some r
      | none =>
        reGo s unroll a i cs (fun j cs2 =>
          if i < j then unroll (.star lz a) j cs2 k else none)
    else
      match reGo s unroll a i cs (fun j cs2 =>
        if i < j then unroll (.star lz a) j cs2 k else k j cs2) with
      | some r => some r
      | none => k i cs
  | .grp n a, i, cs, k => reGo s unroll a i cs (fun j cs2 => k j ((n, i, j) :: cs2))
  | .look a, i, cs, k =>
    match reGo s unroll a i cs (fun j cs2 => some (j, cs2)) with
    | some _ => k i cs
    | none => none
  | .wb, i, cs, k => if atWB s i then k i cs else none
  | .eos, i, cs, k => if i = s.length then k i cs else none
  | .dollar, i, cs, k =>
    if i = s.length ∨ (i + 1 = s.length ∧ s.get? i = some '\n') then k i cs else none
  | .bolM, i, cs, k =>
    if i = 0 ∨ s.get? (i - 1) = some '\n' then k i cs else none

/-- The matcher at a given star-unrolling fuel level.  Every unrolling
consumes at least one character, so `s.length + 1` levels suffice. -/
def reMFuel (s : List Char) : Nat →
    RE → Nat → Caps → (Nat → Caps → Option (Nat × Caps)) → Option (Nat × Caps)
  | 0 => reGo s (fun _ _ _ _ => none)
  | f + 1 => reGo s (reMFuel s f)

/-- Result of a successful match: (start, stop, captures). -/
abbrev MatchRes := Nat × Nat × Caps

/-- Match `r` anchored at position `i` (Python `re.match` when `i = 0`). -/
def reMatchAt (r : RE) (s : List Char) (i : Nat) : Option (Nat × Caps) :=
  reMFuel s (s.length + 1) r i [] (fun j cs => some (j, cs))

/-- Python `re.search`: try every start position left to right. -/
def reSearchFrom (r : RE) (s : List Char) : Nat → Nat → Option MatchRes
  | _, 0 => none
  | i, fuel + 1 =>
    match reMatchAt r s i with
    | some (j, cs) => some (i, j, cs)
    | none => if s.length ≤ i then none else reSearchFrom r s (i + 1) fuel

def reSearch (r : RE) (s : List Char) : Option MatchRes :=
  reSearchFrom r s 0 (s.length + 1)

/-- Extract the text of capture group `n` (last binding wins). -/
def capStr (s : List Char) (cs : Caps) (n : Nat) : Option (List Char) :=
  (cs.find? (fun t => t.1 == n)).map (fun t => (s.drop t.2.1).take (t.2.2 - t.2.1))

/-- Group `n` of a search result. -/
def mGroup (s : List Char) (m : MatchRes) (n : Nat) : Option (List Char) :=
  capStr s m.2.2 n

/-- Python `re.finditer`: non-overlapping matches, scanning left to right;
after an empty match the scan advances one position. -/
def reFindAllFrom (r : RE) (s : List Char) : Nat → Nat → List MatchRes
  | _, 0 => []
  | p, fuel + 1 =>
    match reSearchFrom r s p (s.length + 1 - p) with
    | none => []
    | some (st, en, cs) =>
      (st, en, cs) :: reFindAllFrom r s (if st < en then en else en + 1) fuel

def reFindAll (r : RE) (s : List Char) : List MatchRes :=
  reFindAllFrom r s 0 (s.length + 2)

/-- Python `re.sub` with a replacement function of the whole match. -/
def reSubFrom (r : RE) (repl : MatchRes → List Char) (s : List Char) :
    Nat → Nat → List Char
  | p, 0 => s.drop p
  | p, fuel + 1 =>
    match reSearchFrom r s p (s.length + 1 - p) with
    | none => s.drop p
    | some (st, en, cs) =>
      ((s.drop p).take (st - p)) ++ repl (st, en, cs) ++
        (if st < en then reSubFrom r repl s en fuel
         else ((s.drop en).take 1) ++ reSubFrom r repl s (en + 1) fuel)

def reSub (r : RE) (repl : MatchRes → List Char) (s : List Char) : List Char :=
  reSubFrom r repl s 0 (s.length + 2)

/-- Python `re.split` on a pattern with no capture groups. -/
def reSplit (r : RE) (s : List Char) : List (List Char) :=
  let ms := reFindAll r s
  let rec pieces (p : Nat) (rest : List MatchRes) : List (List Char) :=
    match rest with
    | [] => [s.drop p]
    | (st, en, _) :: t => ((s.drop p).take (st - p)) :: pieces en t
  pieces 0 ms

/-- Python `re.split` on a pattern with exactly one capture group: the
captured text is interleaved between the pieces. -/
def reSplitCap (r : RE) (s : List Char) : List (List Char) :=
  let ms := reFindAll r s
  let rec pieces (p : Nat) (rest : List MatchRes) : List (List Char) :=
    match rest with
    | [] => [s.drop p]
    | m :: t =>
      ((s.drop p).take (m.1 - p)) :: ((mGroup s m 1).getD []) :: pieces m.2.1 t
  pieces 0 ms

/-! ### Pattern building blocks -/

def rchar (c : Char) : RE := .cls (fun x => x == c)

def rcharCI (c : Char) : RE := .cls (fun x => toLowerC x == toLowerC c)

def rnot (c : Char) : RE := .cls (fun x => x != c)

/-- Literal string, case-sensitive. -/
def rstr (t : String) : RE :=
  t.data.foldr (fun c acc => .seq (rchar c) acc) .eps

/-- Literal string, case-insensitive (IGNORECASE). -/
def rstrCI (t : String) : RE :=
  t.data.foldr (fun c acc => .seq (rcharCI c) acc) .eps

/-- Greedy `+`. -/
def rplus (r : RE) : RE := .seq r (.star false r)

/-- Lazy `+?`. -/
def rplusL (r : RE) : RE := .seq r (.star true r)

/-- Greedy `?`. -/
def ropt (r : RE) : RE := .alt r .eps

def rseq (l : List RE) : RE := l.foldr .seq .eps

/-- `.` — any char except newline (DOTALL: any char at all). -/
def rany (dotall : Bool) : RE := .cls (fun c => dotall || c != '\n')

/-- `\s*` (greedy). -/
def spaceStar : RE := .star false (.cls pyIsSpace)

/-- `\s+` (greedy). -/
def spacePlus : RE := rplus (.cls pyIsSpace)

/-! ### Damage Clause Normalizer — `parse_helpers.parse_damage_clause`

The helpers module defines `parse_damage_clause` twice; the later
definition (lines 270–338) is the one in force at import time and is the
one embedded here. -/

/-- The char class `[0-9dD\w\s+\-\*\/\(\),]` (digits and `dD` are inside `\w`). -/
def dmgCls (c : Char) : Bool :=
  isWordC c || pyIsSpace c || c == '+' || c == '-' || c == '*' || c == '/' ||
    c == '(' || c == ')' || c == ','

/-- The char class `[0-9dD\s+\-\*\/A-Za-z\(\)]` used by the pre-check in
`parse_abilities.parse_power_roll_table` (no comma, no underscore). -/
def dmgClsPre (c : Char) : Bool :=
  isDigitC c || isAsciiAlpha c || pyIsSpace c || c == '+' || c == '-' ||
    c == '*' || c == '/' || c == '(' || c == ')'

/-- `[a-zA-Z]+(?:\s+[a-zA-Z]+)*` — the optional type phrase. -/
def typePhrase : RE :=
  .seq (rplus (.cls isAsciiAlpha))
    (.star false (.seq spacePlus (rplus (.cls isAsciiAlpha))))

/-- `([0-9dD\w\s+\-\*\/\(\),]+?)(?:\s+([a-zA-Z]+(?:\s+[a-zA-Z]+)*))?\s+damage`,
IGNORECASE. -/
def reDmgMain : RE :=
  rseq [.grp 1 (rplusL (.cls dmgCls)),
        ropt (rseq [spacePlus, .grp 2 typePhrase]),
        spacePlus, rstrCI "damage"]

/-- `([0-9dD\s+\-\*\/A-Za-z\(\)]+?)(?:\s+([a-zA-Z]+(?:\s+[a-zA-Z]+)*))?\s+damage`,
IGNORECASE (the tier parser's pre-check in `parse_abilities`). -/
def reDmgPre : RE :=
  rseq [.grp 1 (rplusL (.cls dmgClsPre)),
        ropt (rseq [spacePlus, .grp 2 typePhrase]),
        spacePlus, rstrCI "damage"]

/-- `,|\bor\b`, IGNORECASE — token splitter for characteristic lists. -/
def reTokSplit : RE :=
  .alt (rchar ',') (rseq [.wb, rstrCI "or", .wb])

/-- The characteristic abbreviation letters `[AaMmRrPpIi]`. -/
def isCharAbbrev (c : Char) : Bool :=
  c == 'A' || c == 'a' || c == 'M' || c == 'm' || c == 'R' || c == 'r' ||
    c == 'P' || c == 'p' || c == 'I' || c == 'i'

/-- `\d|\d+d\d+|\b[AaMmRrPpIi]\b` (case-sensitive). -/
def reVal1 : RE :=
  .alt (.cls isDigitC)
    (.alt (rseq [rplus (.cls isDigitC), rchar 'd', rplus (.cls isDigitC)])
      (rseq [.wb, .cls isCharAbbrev, .wb]))

/-- `\blevel\b|your level`, IGNORECASE. -/
def reVal2 : RE :=
  .alt (rseq [.wb, rstrCI "level", .wb]) (rstrCI "your level")

/-- `\b<lead>\b` (case-sensitive), for the leading-letter reinterpretation. -/
def reLeadWB (l : List Char) : RE :=
  rseq [.wb, rseq (l.map rchar), .wb]

/-- `([A-Za-z]+)\s+damage\s+equal to\s+([^;]+)`, IGNORECASE. -/
def reEqualTo : RE :=
  rseq [.grp 1 (rplus (.cls isAsciiAlpha)), spacePlus, rstrCI "damage",
        spacePlus, rstrCI "equal to", spacePlus,
        .grp 2 (rplus (rnot ';'))]

/-- `\*\*([^*]+)\*\*` — markdown bold. -/
def reBoldPat : RE :=
  rseq [rstr "**", .grp 1 (rplus (rnot '*')), rstr "**"]

/-- `\s*([+\-])\s*` — operator padding. -/
def reOpPad : RE :=
  rseq [spaceStar, .grp 1 (.cls (fun c => c == '+' || c == '-')), spaceStar]

/-- `re.sub(r'\*\*([^*]+)\*\*', r'\1', l)`. -/
def stripBold (l : List Char) : List Char :=
  reSub reBoldPat (fun m => (capStr l m.2.2 1).getD []) l

/-- `re.sub(r'\s*([+\-])\s*', r' \1 ', l)`. -/
def padOps (l : List Char) : List Char :=
  reSub reOpPad (fun m => ' ' :: ((capStr l m.2.2 1).getD []) ++ [' ']) l

/-- `re.sub(r'\s+', ' ', l)`. -/
def collapseWS (l : List Char) : List Char :=
  reSub spacePlus (fun _ => [' ']) l

/-- The formula normalisation pipeline of `parse_damage_clause`: strip bold,
normalise unicode dashes, pad `+`/`-`, collapse whitespace, strip. -/
def normalizeFormula (fc : List Char) : List Char :=
  stripWS (collapseWS (padOps (replaceChar '—' '-' (replaceChar '–' '-' (stripBold fc)))))

/-- The structured result of `parse_damage_clause`. -/
structure DmgParsed where
  formula : String
  type : Option String
  characteristics : Option (List String)
deriving DecidableEq, Repr

/-- `'damage' in part.lower()`. -/
def hasDamageWord (p : List Char) : Bool :=
  containsSub (lowerL p) ("damage".data)

/-- The heuristic of line 319 of `parse_helpers.py`: the candidate looks
like a damage formula (digit / dice / characteristic letter / "level"). -/
def formulaLooksValid (fc : List Char) : Bool :=
  (reSearch reVal1 fc).isSome || (reSearch reVal2 fc).isSome

/-- The analysis phase of the primary pattern branch of
`parse_damage_clause` (the `m` branch): formula run with optional
characteristic list and type phrase before "damage", with the
leading-single-letter reinterpretation.  Returns
`(formula candidate, damage type, characteristics)` before the validation
heuristic is applied, or `none` when the pattern does not match. -/
def primaryAnalysis (p : List Char) :
    Option (List Char × Option (List Char) × Option (List (List Char))) :=
  match reSearch reDmgMain p with
  | none => none
  | some m =>
    let raw := rstripChars (· == ',') (stripWS ((mGroup p m 1).getD []))
    let damageTypeRaw := mGroup p m 2
    let damageType0 := damageTypeRaw.map lowerL
    let tokens := ((reSplit reTokSplit raw).map stripWS).filter (· ≠ [])
    let formulaCandidate0 := tokens.headD raw
    let charList0 : Option (List (List Char)) :=
      if tokens.length > 1 ∧
          tokens.tail.all (fun t => t.length == 1 && t.all (fun c => isAsciiAlpha c)) then
        some (tokens.tail.map upperL)
      else none
    match damageTypeRaw with
    | none => some (formulaCandidate0, damageType0, charList0)
    | some dtr =>
      let prts := splitWS dtr
      match prts with
      | p0 :: rest =>
        if prts.length ≥ 2 ∧ p0.length == 1 ∧ p0.all (fun c => isAsciiAlpha c) then
          let lead := upperL p0
          let charList1 :=
            match charList0 with
            | none => some [lead]
            | some cl => some (lead :: cl)
          let fc :=
            if (reSearch (reLeadWB lead) formulaCandidate0).isNone then
              stripWS (formulaCandidate0 ++ ' ' :: lead)
            else formulaCandidate0
          let remaining := stripWS (List.intercalate [' '] rest)
          let dt := if remaining ≠ [] then some (lowerL remaining) else none
          some (fc, dt, charList1)
        else some (formulaCandidate0, damageType0, charList0)
      | [] => some (formulaCandidate0, damageType0, charList0)

/-- The primary pattern branch of `parse_damage_clause`: the analysis above
gated by the formula-validation heuristic, then the normalisation pipeline.
`none` when the pattern or the heuristic fails. -/
def parseDamageClausePrimary (p : List Char) : Option DmgParsed :=
  match primaryAnalysis p with
  | none => none
  | some a =>
    if formulaLooksValid a.1 then
      some { formula := String.mk (normalizeFormula a.1),
             type := a.2.1.map String.mk,
             characteristics := a.2.2.map (fun cl => cl.map String.mk) }
    else none

/-- The secondary pattern branch (`m2`): `"<Type> damage equal to <expr>"`. -/
def parseDamageClauseSecondary (p : List Char) : Option DmgParsed :=
  match reSearch reEqualTo p with
  | none => none
  | some m =>
    some { formula := String.mk (collapseWS (stripWS ((mGroup p m 2).getD []))),
           type := (mGroup p m 1).map (fun g => String.mk (lowerL g)),
           characteristics := none }

/-- `parse_helpers.parse_damage_clause` (the second definition, in force at
module load time): guard on the word "damage", then the primary pattern with the
validation heuristic, then the secondary "damage equal to" pattern. -/
def parseDamageClause (part : String) : Option DmgParsed :=
  let p := part.data
  if p.isEmpty || !hasDamageWord p then none
  else
    match parseDamageClausePrimary p with
    | some d => some d
    | none => parseDamageClauseSecondary p

/-! ### Power Roll Segmenter — `parse_abilities.parse_power_roll_table` and
`parse_features.parse_ability_power_roll` -/

/-- One tier's damage record: `{'formula': ..., 'type': ...}` plus the
optional `'characteristics'` key. -/
structure TierDamage where
  formula : String
  type : Option String
  characteristics : Option (List String)
deriving DecidableEq, Repr

structure Tier where
  tier : String
  range : String
  damage : Option TierDamage
  effects : List String
deriving DecidableEq, Repr

structure PowerRollA where
  characteristic : String
  conditional : Option String
  tiers : List Tier
deriving DecidableEq, Repr

structure PowerRollF where
  characteristic : String
  tiers : List Tier
deriving DecidableEq, Repr

/-- `\*\*Power Roll \+ ([^:]+):\*\*`. -/
def reMarker : RE :=
  rseq [rstr "**Power Roll + ", .grp 1 (rplus (rnot ':')), rstr ":**"]

/-- `\*\*Effect:\*\*\s*([^.]+)\.\s*(?:If you target an enemy|Otherwise),?\s*you make a power roll`, IGNORECASE. -/
def reCond : RE :=
  rseq [rstrCI "**Effect:**", spaceStar, .grp 1 (rplus (rnot '.')), rchar '.',
        spaceStar, .alt (rstrCI "If you target an enemy") (rstrCI "Otherwise"),
        ropt (rchar ','), spaceStar, rstrCI "you make a power roll"]

/-- `\n\*\*[^*]+\*\*` — the next bold section heading. -/
def reNextSect : RE :=
  rseq [rchar '\n', rstr "**", rplus (rnot '*'), rstr "**"]

/-- Lookahead `(?=(?:\n(?:>\s*)?-\s*\*\*|\n\*\*|\Z))`. -/
def tierLookA : RE :=
  .look (.alt (rseq [rchar '\n', ropt (rseq [rchar '>', spaceStar]),
                     rchar '-', spaceStar, rstr "**"])
          (.alt (rseq [rchar '\n', rstr "**"]) .eos))

/-- `(?:>\s*)?-\s*\*\*([^:]+):\*\*\s*(.+?)(?=...)`, DOTALL — a tier bullet
in the standalone parser. -/
def reTierA : RE :=
  rseq [ropt (rseq [rchar '>', spaceStar]), rchar '-', spaceStar, rstr "**",
        .grp 1 (rplus (rnot ':')), rstr ":**", spaceStar,
        .grp 2 (rplusL (rany true)), tierLookA]

/-- `-\s*\*\*([^:]+):\*\*\s*(.+?)(?=\n-\s*\*\*|$)`, DOTALL — a tier bullet
in the embedded parser. -/
def reTierF : RE :=
  rseq [rchar '-', spaceStar, rstr "**", .grp 1 (rplus (rnot ':')),
        rstr ":**", spaceStar, .grp 2 (rplusL (rany true)),
        .look (.alt (rseq [rchar '\n', rchar '-', spaceStar, rstr "**"]) .dollar)]

/-- Range-text classification of `parse_abilities.parse_power_roll_table`
(lines 261–269). -/
def classifyRangeA (rangeText : List Char) : String :=
  if containsSub rangeText "≤11".data || containsSub rangeText "11-".data then "weak"
  else if containsSub rangeText "12-16".data || containsSub rangeText "12–16".data then "average"
  else if containsSub rangeText "17+".data || containsSub rangeText "17–".data then "strong"
  else "unknown"

/-- Range-text classification of `parse_features.parse_ability_power_roll`
(lines 242–250). -/
def classifyRangeF (rangeText : List Char) : String :=
  if containsSub rangeText "≤11".data || containsSub rangeText "11-".data then "weak"
  else if containsSub rangeText "12-16".data || containsSub rangeText "12–16".data then "average"
  else if containsSub rangeText "17+".data || containsSub rangeText "17–".data then "strong"
  else "unknown"

def mkTierDamage (p : DmgParsed) : TierDamage :=
  { formula := p.formula, type := p.type, characteristics := p.characteristics }

/-- The per-part update of the standalone tier loop
(`parse_abilities.parse_power_roll_table` lines 278–303): a damage-like
part is pre-checked against `reDmgPre`; an accepted clause (re)assigns
`damage`, a rejected clause is kept as an effect, and a damage-like part
failing the pre-check is dropped. -/
def tierStepA (st : Option TierDamage × List String) (part0 : List Char) :
    Option TierDamage × List String :=
  let part := stripWS part0
  if hasDamageWord part then
    match reSearch reDmgPre part with
    | some _ =>
      match parseDamageClause (String.mk part) with
      | some p => (some (mkTierDamage p), st.2)
      | none => (st.1, st.2 ++ [String.mk part])
    | none => st
  else if part.isEmpty then st
  else (st.1, st.2 ++ [String.mk part])

def tierDamageEffectsA (resultText : List Char) : Option TierDamage × List String :=
  (splitOnChar ';' resultText).foldl tierStepA (none, [])

/-- The single-letter damage-type fold of the embedded tier loop
(`parse_features.parse_ability_power_roll` lines 266–268). -/
def foldSingleLetterTy (d : TierDamage) : TierDamage :=
  match d.type with
  | none => d
  | some t =>
    if t.length == 1 &&
        (lowerL t.data == ['m'] || lowerL t.data == ['a'] || lowerL t.data == ['r'] ||
         lowerL t.data == ['i'] || lowerL t.data == ['p']) then
      { formula := String.mk (stripWS (d.formula.data ++ ' ' :: upperL t.data)),
        type := none, characteristics := d.characteristics }
    else d

/-- The per-part update of the embedded tier loop
(`parse_features.parse_ability_power_roll` lines 257–273). -/
def tierStepF (st : Option TierDamage × List String) (part0 : List Char) :
    Option TierDamage × List String :=
  let part := stripWS part0
  if hasDamageWord part then
    match parseDamageClause (String.mk part) with
    | some p => (some (foldSingleLetterTy (mkTierDamage p)), st.2)
    | none => (st.1, st.2 ++ [String.mk part])
  else if part.isEmpty then st
  else (st.1, st.2 ++ [String.mk part])

def tierDamageEffectsF (resultText : List Char) : Option TierDamage × List String :=
  (splitOnChar ';' resultText).foldl tierStepF (none, [])

/-- The tier list recovered by `parse_power_roll_table` from the bounded
power-roll section text. -/
def tiersFromA (prContent : List Char) : List Tier :=
  (reFindAll reTierA prContent).map (fun tm =>
    let rangeText := stripWS ((mGroup prContent tm 1).getD [])
    let resultText := stripWS ((mGroup prContent tm 2).getD [])
    let de := tierDamageEffectsA resultText
    { tier := classifyRangeA rangeText, range := String.mk rangeText,
      damage := de.1, effects := de.2 })

/-- The power-roll section text: from the end of the marker up to the next
bold heading (`\n\*\*[^*]+\*\*`), or the end of the document. -/
def prSectionContent (c : List Char) (markerEnd : Nat) : List Char :=
  let rest := c.drop markerEnd
  match reSearch reNextSect rest with
  | some ms => stripWS (rest.take ms.1)
  | none => stripWS rest

/-- `parse_abilities.parse_power_roll_table`. -/
def parsePowerRollTable (content : String) : Option PowerRollA :=
  let c := content.data
  match reSearch reMarker c with
  | none => none
  | some m =>
    let characteristic := String.mk (stripWS ((mGroup c m 1).getD []))
    let conditional := (reSearch reCond c).bind (fun mc => (mGroup c mc 1).map String.mk)
    let tiers := tiersFromA (prSectionContent c m.2.1)
    if tiers.isEmpty then none
    else some { characteristic, conditional, tiers }

/-- The tier list recovered by `parse_ability_power_roll`; the embedded
parser scans the whole content, not a bounded section. -/
def tiersFromF (c : List Char) : List Tier :=
  (reFindAll reTierF c).map (fun tm =>
    let rangeText := stripWS ((mGroup c tm 1).getD [])
    let resultText := stripWS ((mGroup c tm 2).getD [])
    let de := tierDamageEffectsF resultText
    { tier := classifyRangeF rangeText, range := String.mk rangeText,
      damage := de.1, effects := de.2 })

/-- `parse_features.parse_ability_power_roll`. -/
def parseAbilityPowerRoll (content : String) : Option PowerRollF :=
  let c := content.data
  match reSearch reMarker c with
  | none => none
  | some m =>
    let characteristic := String.mk (stripWS ((mGroup c m 1).getD []))
    let tiers := tiersFromF c
    if tiers.isEmpty then none
    else some { characteristic, tiers }

/-! ### Effect Section Extractor — `parse_abilities.parse_effects` and
`parse_features.parse_ability_effects` -/

structure EffectsMap where
  trigger : Option String
  before : Option String
  after : Option String
  effect : Option String
  mark_benefit : Option String
  strained : Option String
deriving DecidableEq, Repr

/-- `\*\*Trigger:\*\*\s*(.+?)(?=\n\n\*\*|\n\*\*|\Z)`, DOTALL. -/
def reTrig : RE :=
  rseq [rstr "**Trigger:**", spaceStar, .grp 1 (rplusL (rany true)),
        .look (.alt (rstr "\n\n**") (.alt (rstr "\n**") .eos))]

/-- `(?:\*\*🎯[^*]+\*\*|\*\*Trigger:\*\*[^\n]+).*?\n\n\*\*Effect:\*\*\s*(.+?)(?=\n\n\*\*Power Roll)`,
DOTALL (identical in both files). -/
def reBefore : RE :=
  rseq [.alt (rseq [rstr "**🎯", rplus (rnot '*'), rstr "**"])
          (rseq [rstr "**Trigger:**", rplus (rnot '\n')]),
        .star true (rany true), rstr "\n\n**Effect:**", spaceStar,
        .grp 1 (rplusL (rany true)), .look (rstr "\n\n**Power Roll")]

/-- `(?:- \*\*[^*]+\*\*[^*]*\n)` — one tier bullet line. -/
def bulletLine : RE :=
  rseq [rstr "- **", rplus (rnot '*'), rstr "**", .star false (rnot '*'), rchar '\n']

/-- `\*\*Power Roll.+?\n(?:- \*\*[^*]+\*\*[^*]*\n)+.*?\n\n\*\*Effect:\*\*\s*(.+?)(?=\n\n\*\*Mark Benefit|\n\n\*\*Persistent|\n\n|$)`, DOTALL (standalone variant). -/
def reAfterA : RE :=
  rseq [rstr "**Power Roll", rplusL (rany true), rchar '\n', rplus bulletLine,
        .star true (rany true), rstr "\n\n**Effect:**", spaceStar,
        .grp 1 (rplusL (rany true)),
        .look (.alt (rstr "\n\n**Mark Benefit")
                (.alt (rstr "\n\n**Persistent") (.alt (rstr "\n\n") .dollar)))]

/-- The embedded variant: lookahead
`(?=\n\n\*\*Mark Benefit|\n\n\*\*Persistent|\n\n\*\*Spend|\Z)`. -/
def reAfterF : RE :=
  rseq [rstr "**Power Roll", rplusL (rany true), rchar '\n', rplus bulletLine,
        .star true (rany true), rstr "\n\n**Effect:**", spaceStar,
        .grp 1 (rplusL (rany true)),
        .look (.alt (rstr "\n\n**Mark Benefit")
                (.alt (rstr "\n\n**Persistent") (.alt (rstr "\n\n**Spend") .eos)))]

/-- `\*\*Effect:\*\*\s*(.+?)(?=\n#{5,6}|\Z)`, DOTALL (standalone, no power roll). -/
def reEffNoPRA : RE :=
  rseq [rstr "**Effect:**", spaceStar, .grp 1 (rplusL (rany true)),
        .look (.alt (rseq [rchar '\n', rstr "#####", ropt (rchar '#')]) .eos)]

/-- `\*\*Effect:\*\*\s*(.+?)(?=\n>\s*#{5,6}|\Z)`, DOTALL (embedded, no power roll). -/
def reEffNoPRF : RE :=
  rseq [rstr "**Effect:**", spaceStar, .grp 1 (rplusL (rany true)),
        .look (.alt (rseq [rchar '\n', rchar '>', spaceStar, rstr "#####", ropt (rchar '#')]) .eos)]

/-- `\*\*Mark Benefit:\*\*\s*(.+?)(?=\n\n\*\*Persistent|\n\n|$)`, DOTALL. -/
def reMark : RE :=
  rseq [rstr "**Mark Benefit:**", spaceStar, .grp 1 (rplusL (rany true)),
        .look (.alt (rstr "\n\n**Persistent") (.alt (rstr "\n\n") .dollar))]

/-- `\*\*Strained:\*\*\s*(.+?)(?=\n\n\*\*|\n\*\*|\Z)`, DOTALL. -/
def reStrained : RE :=
  rseq [rstr "**Strained:**", spaceStar, .grp 1 (rplusL (rany true)),
        .look (.alt (rstr "\n\n**") (.alt (rstr "\n**") .eos))]

/-- Search, take group 1, strip — the common `match.group(1).strip()` step. -/
def searchG1strip (r : RE) (c : List Char) : Option String :=
  (reSearch r c).bind (fun m => (mGroup c m 1).map (fun g => String.mk (stripWS g)))

/-- The before/after renaming of both extractors: both kept when both are
present, a single one renamed to `effect`. Returns `(before, after, effect)`. -/
def renameBE (b a : Option String) : Option String × Option String × Option String :=
  match b, a with
  | some bv, some av => (some bv, some av, none)
  | some bv, none => (none, none, some bv)
  | none, some av => (none, none, some av)
  | none, none => (none, none, none)

/-- `parse_abilities.parse_effects`. -/
def parseEffectsA (content : String) (hasPR : Bool) : Option EffectsMap :=
  let c := content.data
  let trigger := searchG1strip reTrig c
  let bae :=
    if hasPR then renameBE (searchG1strip reBefore c) (searchG1strip reAfterA c)
    else (none, none, searchG1strip reEffNoPRA c)
  let mark := searchG1strip reMark c
  let strained := searchG1strip reStrained c
  if trigger.isNone ∧ bae.1.isNone ∧ bae.2.1.isNone ∧ bae.2.2.isNone ∧
      mark.isNone ∧ strained.isNone then none
  else some { trigger, before := bae.1, after := bae.2.1, effect := bae.2.2,
              mark_benefit := mark, strained }

/-- `parse_features.parse_ability_effects`. -/
def parseAbilityEffectsF (content : String) (hasPR : Bool) : Option EffectsMap :=
  let c := content.data
  let trigger := searchG1strip reTrig c
  let bae :=
    if hasPR then renameBE (searchG1strip reBefore c) (searchG1strip reAfterF c)
    else (none, none, searchG1strip reEffNoPRF c)
  let mark := searchG1strip reMark c
  let strained := searchG1strip reStrained c
  if trigger.isNone ∧ bae.1.isNone ∧ bae.2.1.isNone ∧ bae.2.2.isNone ∧
      mark.isNone ∧ strained.isNone then none
  else some { trigger, before := bae.1, after := bae.2.1, effect := bae.2.2,
              mark_benefit := mark, strained }

/-! ### Persistent, cost options, targeting, flavor -/

structure Persistent where
  turns : Nat
  description : String
deriving DecidableEq, Repr

/-- `\*\*Persistent (\d+):\*\*\s*(.+?)(?=\n\n|\Z)`, DOTALL (identical in
`parse_abilities.parse_persistent` and `parse_features.parse_embedded_ability`). -/
def rePersistent : RE :=
  rseq [rstr "**Persistent ", .grp 1 (rplus (.cls isDigitC)), rstr ":**",
        spaceStar, .grp 2 (rplusL (rany true)), .look (.alt (rstr "\n\n") .eos)]

def parsePersistentOf (c : List Char) : Option Persistent :=
  (reSearch rePersistent c).map (fun m =>
    { turns := digitsToNat ((mGroup c m 1).getD []),
      description := String.mk (stripWS ((mGroup c m 2).getD [])) })

structure CostOption where
  amount : String
  resource : String
  effect : String
deriving DecidableEq, Repr

/-- `\*\*Spend (\d+\+?) ([^:]+):\*\*\s*(.+?)(?=\n\n\*\*Spend|\Z)`, DOTALL. -/
def reSpend : RE :=
  rseq [rstr "**Spend ", .grp 1 (rseq [rplus (.cls isDigitC), ropt (rchar '+')]),
        rchar ' ', .grp 2 (rplus (rnot ':')), rstr ":**", spaceStar,
        .grp 3 (rplusL (rany true)), .look (.alt (rstr "\n\n**Spend") .eos)]

def parseCostOptionsOf (c : List Char) : List CostOption :=
  (reFindAll reSpend c).map (fun m =>
    { amount := String.mk ((mGroup c m 1).getD []),
      resource := String.mk ((mGroup c m 2).getD []),
      effect := String.mk (stripWS ((mGroup c m 3).getD [])) })

structure Targeting where
  distance : Option String
  target : Option String
deriving DecidableEq, Repr

/-- `\*\*📏\s*([^*]+?)\*\*`. -/
def reDist : RE :=
  rseq [rstr "**📏", spaceStar, .grp 1 (rplusL (rnot '*')), rstr "**"]

/-- `\*\*🎯\s*([^*]+?)\*\*`. -/
def reTarg : RE :=
  rseq [rstr "**🎯", spaceStar, .grp 1 (rplusL (rnot '*')), rstr "**"]

/-- `parse_abilities.parse_targeting_table`. -/
def parseTargetingTable (content : String) : Option Targeting :=
  let c := content.data
  let d := searchG1strip reDist c
  let t := searchG1strip reTarg c
  if d.isSome || t.isSome then some { distance := d, target := t } else none

/-- `\*([^*]+)\*` — embedded-mode flavor text. -/
def reFlavorF : RE :=
  rseq [rchar '*', .grp 1 (rplus (rnot '*')), rchar '*']

/-- `#+ .+?\n\n\*(.+?)\*` — standalone-mode flavor text (no DOTALL). -/
def reFlavorA : RE :=
  rseq [rplus (rchar '#'), rchar ' ', rplusL (rany false), rstr "\n\n*",
        .grp 1 (rplusL (rany false)), rchar '*']

/-- `^>\s*`, MULTILINE — blockquote marker stripper. -/
def reBQ : RE := rseq [.bolM, rchar '>', spaceStar]

/-! ### Embedded-mode table parsing (`parse_embedded_ability` lines 335–418) -/

/-- A stripped line that starts and ends with `|`. -/
def isTableLine (l : List Char) : Bool :=
  !l.isEmpty && l.headD ' ' == '|' && l.getLastD ' ' == '|'

/-- Group consecutive table lines (stripped) and keep runs of length ≥ 3. -/
def collectTables (lines : List (List Char)) : List (List (List Char)) :=
  let st := lines.foldl
    (fun (st : List (List (List Char)) × List (List Char)) line0 =>
      let line := stripWS line0
      if isTableLine line then (st.1, st.2 ++ [line])
      else if st.2.length ≥ 3 then (st.1 ++ [st.2], []) else (st.1, []))
    ([], [])
  if st.2.length ≥ 3 then st.1 ++ [st.2] else st.1

/-- `row.split('|')[1:-1]` then per-cell cleanup. -/
def splitCells (row : List Char) (clean : List Char → List Char) : List (List Char) :=
  (((splitOnChar '|' row).drop 1).dropLast).map clean

def cleanHeaderCell (c : List Char) : List Char :=
  removeSub "**".data (stripWS c)

def cleanDataCell (c : List Char) : List Char :=
  removeSub "🎯".data (removeSub "📏".data (removeSub "**".data (stripWS c)))

/-- The keyword vocabulary of the fallback table branch. -/
def kwVocab : List String :=
  ["area", "magic", "psionic", "ranged", "melee", "strike", "telepathy",
   "force", "fire", "cold", "lightning", "poison", "necrotic", "radiant",
   "weapon", "spell", "divine", "martial"]

def actionVocab : List String :=
  ["maneuver", "main action", "free action", "reaction", "bonus action", "action"]

/-- Mutable fields the table scan can set: keywords, distance, action type,
target. -/
structure TableFields where
  keywords : List String
  distance : Option String
  action_type : Option String
  target : Option String
deriving DecidableEq, Repr

/-- The per-column update of the fallback (≥ 3 column) branch. -/
def fallbackCol (st : TableFields) (header dataVal : List Char) : TableFields :=
  if dataVal.isEmpty then st
  else
    let hl := lowerL header
    if kwVocab.any (fun kw => containsSub hl kw.data) then
      { st with keywords := st.keywords ++
          (((splitOnChar ',' dataVal).map stripWS).filter (· ≠ [])).map String.mk }
    else if containsSub hl "distance".data || containsSub hl "ranged".data ||
        containsSub hl "melee".data || containsSub hl "reach".data then
      { st with distance := some (String.mk dataVal) }
    else if actionVocab.any (fun a => containsSub hl a.data) then
      { st with action_type := some (String.mk dataVal) }
    else if containsSub hl "target".data then
      { st with target := some (String.mk dataVal) }
    else st

/-- Apply one candidate table; `none` when the table does not satisfy the
equal-length/≥2-column condition (the loop then tries the next table). -/
def applyTable (st : TableFields) (table : List (List Char)) : Option TableFields :=
  match table with
  | headerRow :: _ :: dataRow :: _ =>
    let headerCols := splitCells headerRow cleanHeaderCell
    let dataCols := splitCells dataRow cleanDataCell
    if headerCols.length == dataCols.length ∧ headerCols.length ≥ 2 then
      if headerCols.length == 2 then
        let h0 := headerCols.headD []
        let d0 := dataCols.headD []
        let h1 := (headerCols.drop 1).headD []
        let d1 := (dataCols.drop 1).headD []
        let st1 :=
          if !h0.isEmpty then
            let kws := (((splitOnChar ',' h0).map stripWS).filter (· ≠ [])).map String.mk
            if !kws.isEmpty then { st with keywords := kws } else st
          else st
        let st2 := if !d0.isEmpty then { st1 with distance := some (String.mk d0) } else st1
        let st3 := if !h1.isEmpty then { st2 with action_type := some (String.mk h1) } else st2
        let st4 := if !d1.isEmpty then { st3 with target := some (String.mk d1) } else st3
        some st4
      else
        some ((headerCols.zip dataCols).foldl (fun s p => fallbackCol s p.1 p.2) st)
    else none
  | _ => none

/-- Process tables in order, stopping after the first valid one. -/
def applyTables (st : TableFields) : List (List (List Char)) → TableFields
  | [] => st
  | t :: rest =>
    match applyTable st t with
    | some st2 => st2
    | none => applyTables st rest

/-! ### Component Order Reconstructor -/

/-- The section-label literals scanned for positions (both modes). -/
def sectionLits : List (String × String) :=
  [("trigger", "**Trigger:**"), ("effect", "**Effect:**"),
   ("power_roll", "**Power Roll"), ("mark_benefit", "**Mark Benefit:**"),
   ("strained", "**Strained:**"), ("persistent", "**Persistent"),
   ("cost_options", "**Spend")]

def secPositions (c : List Char) : List (String × Nat) :=
  sectionLits.filterMap (fun p =>
    (reSearch (rstr p.2) c).map (fun m => (p.1, m.1)))

def insertByPos (x : String × Nat) : List (String × Nat) → List (String × Nat)
  | [] => [x]
  | y :: t => if y.2 ≤ x.2 then y :: insertByPos x t else x :: y :: t

/-- Stable sort by position (Python `sorted(..., key=lambda x: x[1])`). -/
def sortByPos (l : List (String × Nat)) : List (String × Nat) :=
  l.foldr insertByPos []

/-- Append a component if not in the `added` set, recording it
(state = (components, added)). -/
def addIfNew (st : List String × List String) (x : String) :
    List String × List String :=
  if x ∈ st.2 then st else (st.1 ++ [x], x :: st.2)

/-- The per-section step of the embedded component-order loop
(`parse_embedded_ability` lines 451–493). -/
def compStepF (pe : Option EffectsMap) (st : List String × List String)
    (sec : String) : List String × List String :=
  if sec == "trigger" then
    match pe with
    | some e => if e.trigger.isSome then addIfNew st "trigger" else st
    | none => st
  else if sec == "effect" then
    match pe with
    | some e =>
      if e.before.isSome ∧ e.after.isSome then addIfNew (addIfNew st "before") "after"
      else if e.before.isSome ∧ "before" ∉ st.2 then addIfNew st "before"
      else if e.after.isSome ∧ "after" ∉ st.2 then addIfNew st "after"
      else if e.effect.isSome ∧ "effect" ∉ st.2 then addIfNew st "effect"
      else st
    | none => st
  else if sec == "power_roll" then addIfNew st "power_roll"
  else if sec == "mark_benefit" then addIfNew st "mark_benefit"
  else if sec == "strained" then
    match pe with
    | some e => if e.strained.isSome then addIfNew st "strained" else st
    | none => st
  else if sec == "persistent" then addIfNew st "persistent"
  else if sec == "cost_options" then addIfNew st "cost_options"
  else st

/-- Embedded-mode component order: label positions, stable sort, then the
population-conditional appends. -/
def componentOrderF (t : List Char) (pe : Option EffectsMap) : List String :=
  (((sortByPos (secPositions t)).map (·.1)).foldl (compStepF pe) ([], [])).1

/-! ### Ability Assembler, embedded mode — `parse_features.parse_embedded_ability` -/

structure EmbeddedAbility where
  name : String
  flavor_text : Option String
  action_type : Option String
  keywords : List String
  distance : Option String
  target : Option String
  cost_options : List CostOption
  power_roll : Option PowerRollF
  effects : Option EffectsMap
  persistent : Option Persistent
  component_order : List String
deriving DecidableEq, Repr

def parseEmbeddedAbility (abilityText : String) (abilityName : String) :
    EmbeddedAbility :=
  let t := stripWS (reSub reBQ (fun _ => []) abilityText.data)
  let flavor := (reSearch reFlavorF t).bind
    (fun m => (mGroup t m 1).map (fun g => String.mk (stripWS g)))
  let power_roll := parseAbilityPowerRoll (String.mk t)
  let effects := parseAbilityEffectsF (String.mk t) power_roll.isSome
  let persistent := parsePersistentOf t
  let cost_options := parseCostOptionsOf t
  let tf := applyTables { keywords := [], distance := none,
                          action_type := none, target := none }
    (collectTables (splitNL t))
  -- the source recomputes `parse_ability_effects` for the component order;
  -- the function is pure, so the value is the same
  let comps := componentOrderF t effects
  { name := abilityName, flavor_text := flavor, action_type := tf.action_type,
    keywords := tf.keywords, distance := tf.distance, target := tf.target,
    cost_options, power_roll, effects, persistent, component_order := comps }

/-- The final cleanup of `parse_embedded_ability` (line 499):
`{k: v for k, v in ability.items() if v is not None and v != [] and v != ""}` —
the keys that remain in the returned dict, in insertion order.  A present
`power_roll`/`effects`/`persistent` sub-dict is never `None`/`[]`/`""`;
`component_order` is only inserted when non-empty. -/
def keepS (s : String) : Bool := !(s == "")

def keepOS : Option String → Bool
  | none => false
  | some s => !(s == "")

def embeddedKeys (a : EmbeddedAbility) : List String :=
  (if keepS a.name then ["name"] else []) ++
  (if keepOS a.flavor_text then ["flavor_text"] else []) ++
  (if keepOS a.action_type then ["action_type"] else []) ++
  (if !a.keywords.isEmpty then ["keywords"] else []) ++
  (if keepOS a.distance then ["distance"] else []) ++
  (if keepOS a.target then ["target"] else []) ++
  (if !a.cost_options.isEmpty then ["cost_options"] else []) ++
  (if a.power_roll.isSome then ["power_roll"] else []) ++
  (if a.effects.isSome then ["effects"] else []) ++
  (if a.persistent.isSome then ["persistent"] else []) ++
  (if !a.component_order.isEmpty then ["component_order"] else [])

/-! ### Front matter — `parse_abilities.extract_frontmatter`

The script prefers PyYAML when importable and otherwise uses its own
fallback parser; the in-repository code is the fallback parser, which is
what is embedded (the claims only depend on whether the mapping is empty).
A list-continuation line for a key already holding a scalar raises
`AttributeError` in Python (`str` has no `append`); the whole fallback
parse runs inside `extract_frontmatter`'s `try`, whose handler prints and
returns `({}, content)` — modelled by an `Except` fold whose error is
turned into the empty mapping with the original content. -/

inductive FMVal where
  | s : String → FMVal
  | l : List String → FMVal
deriving DecidableEq, Repr

abbrev FMDict := List (String × FMVal)

def fmGet (d : FMDict) (k : String) : Option FMVal :=
  (d.find? (·.1 == k)).map (·.2)

def fmSet (d : FMDict) (k : String) (v : FMVal) : FMDict :=
  if d.any (·.1 == k) then d.map (fun p => if p.1 == k then (k, v) else p)
  else d ++ [(k, v)]

def fmSetDefaultList (d : FMDict) (k : String) : FMDict :=
  if d.any (·.1 == k) then d else d ++ [(k, .l [])]

/-- `^---\s*\n(.*?)\n---\s*\n(.*)$`, DOTALL, anchored (`re.match`). -/
def reFM : RE :=
  rseq [rstr "---", spaceStar, rchar '\n', .grp 1 (.star true (rany true)),
        rstr "\n---", spaceStar, rchar '\n', .grp 2 (.star false (rany true)),
        .dollar]

/-- `^\s*-\s+(.*)$` — a front-matter list item (anchored). -/
def reFMItem : RE :=
  rseq [spaceStar, rchar '-', spacePlus, .grp 1 (.star false (rany false)), .dollar]

def stripQuotes (l : List Char) : List Char :=
  stripChars (fun c => c == '"' || c == '\'') l

def splitOnceChar (sep : Char) (l : List Char) : Option (List Char × List Char) :=
  match l with
  | [] => none
  | c :: t =>
    if c == sep then some ([], t)
    else (splitOnceChar sep t).map (fun p => (c :: p.1, p.2))

/-- One line of the fallback front-matter parser (state = (dict, current
key)).  `.error` is the `AttributeError` raised by
`frontmatter[current_key].append(...)` when the key already holds a
scalar (`setdefault` leaves the existing scalar in place). -/
def fmLineStep (st : FMDict × Option String) (raw : List Char) :
    Except Unit (FMDict × Option String) :=
  let line := rstripChars pyIsSpace raw
  if line.isEmpty then .ok st
  else
    match reMatchAt reFMItem line 0, st.2 with
    | some (_, cs), some ck =>
      let item := String.mk (stripQuotes (stripWS ((capStr line cs 1).getD [])))
      match fmGet st.1 ck with
      | some (.s _) => .error ()
      | some (.l xs) => .ok (fmSet st.1 ck (.l (xs ++ [item])), st.2)
      | none => .ok (st.1 ++ [(ck, .l [item])], st.2)
    | _, _ =>
      match splitOnceChar ':' line with
      | some (k0, v0) =>
        let key := String.mk (stripWS k0)
        let val := stripWS v0
        if val.isEmpty then .ok (fmSetDefaultList st.1 key, some key)
        else .ok (fmSet st.1 key (.s (String.mk (stripQuotes val))), none)
      | none => .ok st

def fmFoldLines : List (List Char) → (FMDict × Option String) →
    Except Unit (FMDict × Option String)
  | [], st => .ok st
  | l :: rest, st =>
    match fmLineStep st l with
    | .ok st2 => fmFoldLines rest st2
    | .error e => .error e

/-- `parse_abilities.extract_frontmatter` (fallback branch).  A raising
line aborts the parse; the surrounding `except` handler returns
`({}, content)` with the original, unsplit content. -/
def extractFrontmatter (content : String) : FMDict × String :=
  let c := content.data
  match reMatchAt reFM c 0 with
  | some (_, cs) =>
    let fmText := (capStr c cs 1).getD []
    let body := (capStr c cs 2).getD []
    match fmFoldLines (splitNL fmText) ([], none) with
    | .ok st => (st.1, String.mk body)
    | .error _ => ([], content)
  | none => ([], content)

/-! ### Stat Block Extractor — `parse_helpers.parse_stat_block` -/

inductive StatVal where
  | i : Int → StatVal
  | s : String → StatVal
deriving DecidableEq, Repr

/-- `int(x)` if it parses, else keep the string. -/
def intOrStr (v : List Char) : StatVal :=
  match pyToInt v with
  | some n => .i n
  | none => .s (String.mk v)

structure TraitRec where
  name : String
  type : String
  text : String
deriving DecidableEq, Repr

structure StatBlock where
  name : String
  full_content : String
  stat_table : Option String
  stats : Option (List (String × StatVal))
  traits : Option (List TraitRec)
deriving DecidableEq, Repr

/-- `>?\s*#{6}\s+(.+?)\s+Statblock\s*\n`, IGNORECASE. -/
def reSBHead : RE :=
  rseq [ropt (rchar '>'), spaceStar, rstr "######", spacePlus,
        .grp 1 (rplusL (rany false)), spacePlus, rstrCI "Statblock",
        spaceStar, rchar '\n']

/-- Up to `n` greedy repetitions of `r`. -/
def rupto : Nat → RE → RE
  | 0, _ => .eps
  | n + 1, r => ropt (.seq r (rupto n r))

/-- `\n(?:>\s*)?#{1,6}\s+`. -/
def reSBNextHead : RE :=
  rseq [rchar '\n', ropt (rseq [rchar '>', spaceStar]), rchar '#',
        rupto 5 (rchar '#'), spacePlus]

/-- `>?\s*\*\*(.+?)\*\*\s*\n`. -/
def reSBCreature : RE :=
  rseq [ropt (rchar '>'), spaceStar, rstr "**", .grp 1 (rplusL (rany false)),
        rstr "**", spaceStar, rchar '\n']

/-- `\n>\s*>\s*\*\*([^*]+)\*\*\s*\n` — trait-splitting pattern. -/
def reTraitSplit : RE :=
  rseq [rchar '\n', rchar '>', spaceStar, rchar '>', spaceStar, rstr "**",
        .grp 1 (rplus (rnot '*')), rstr "**", spaceStar, rchar '\n']

/-- `^>\s*>?\s*`, MULTILINE — trait-content cleanup. -/
def reTraitBQ : RE :=
  rseq [.bolM, rchar '>', spaceStar, ropt (rchar '>'), spaceStar]

/-- `\*\*([^*]+)\*\*` applied to a table cell. -/
def reCellBold : RE :=
  rseq [rstr "**", .grp 1 (rplus (rnot '*')), rstr "**"]

/-- `<br/>.*` (no DOTALL). -/
def reBrTail : RE := rseq [rstr "<br/>", .star false (rany false)]

/-- `extract_value` of the nested `parse_stat_table_fields`. -/
def extractValue (cell0 : List Char) : Option (List Char) :=
  let cell := stripWS cell0
  let value :=
    match reSearch reCellBold cell with
    | some m => stripWS ((mGroup cell m 1).getD [])
    | none => stripWS (reSub reBrTail (fun _ => []) cell)
  if value.isEmpty || value == ['-'] then none else some value

/-- `split_row`: strip pipes, split on `|`, strip cells. -/
def splitRowCells (line : List Char) : List (List Char) :=
  ((splitOnChar '|' (stripChars (· == '|') line)).map stripWS)

/-- `Level\s+(\d+)`. -/
def reLevelNum : RE :=
  rseq [rstr "Level", spacePlus, .grp 1 (rplus (.cls isDigitC))]

/-- `EV\s+(.+)` (no DOTALL). -/
def reEVTail : RE :=
  rseq [rstr "EV", spacePlus, .grp 1 (rplus (rany false))]

def statPut (d : List (String × StatVal)) (k : String) (v : StatVal) :
    List (String × StatVal) :=
  if d.any (·.1 == k) then d.map (fun p => if p.1 == k then (k, v) else p)
  else d ++ [(k, v)]

/-- The nested `parse_stat_table_fields` of `parse_helpers.parse_stat_block`
(rows 1–3; the helpers version reads no characteristics row). -/
def parseStatTableFields (table : List Char) : List (String × StatVal) :=
  let lines := splitNL (stripWS table)
  if lines.length < 3 then []
  else
    let row1 := splitRowCells (lines.headD [])
    let row2 := if lines.length > 2 then splitRowCells ((lines.drop 2).headD []) else []
    let row3 := if lines.length > 3 then splitRowCells ((lines.drop 3).headD []) else []
    let s0 : List (String × StatVal) := []
    let s1 :=
      if row1.length ≥ 5 then
        let a :=
          match extractValue (row1.headD []) with
          | some v => statPut s0 "ancestry" (.s (String.mk v))
          | none => s0
        let b :=
          match extractValue ((row1.drop 2).headD []) with
          | some v =>
            match reSearch reLevelNum v with
            | some m => statPut a "level" (.i (Int.ofNat (digitsToNat ((mGroup v m 1).getD []))))
            | none => statPut a "level" (.s (String.mk v))
          | none => a
        let c :=
          match extractValue ((row1.drop 3).headD []) with
          | some v => statPut b "role" (.s (String.mk v))
          | none => b
        match extractValue ((row1.drop 4).headD []) with
        | some v =>
          if "EV".data.isPrefixOf v then
            match reSearch reEVTail v with
            | some m => statPut c "ev" (.s (String.mk (stripWS ((mGroup v m 1).getD []))))
            | none => statPut c "ev" (.s (String.mk v))
          else c
        | none => c
      else s0
    let s2 :=
      if row2.length ≥ 5 then
        let f := fun (st : List (String × StatVal)) (idx : Nat) (key : String) =>
          match extractValue ((row2.drop idx).headD []) with
          | some v => statPut st key (intOrStr v)
          | none => st
        let a :=
          match extractValue (row2.headD []) with
          | some v => statPut s1 "size" (.s (String.mk v))
          | none => s1
        f (f (f (f a 1 "speed") 2 "stamina") 3 "stability") 4 "free_strike"
      else s1
    if row3.length ≥ 5 then
      let a :=
        match extractValue (row3.headD []) with
        | some v => statPut s2 "immunities" (.s (String.mk v))
        | none => s2
      let b :=
        match extractValue ((row3.drop 1).headD []) with
        | some v => statPut a "movement" (.s (String.mk v))
        | none => a
      let c :=
        match extractValue ((row3.drop 3).headD []) with
        | some v => statPut b "with_captain" (.s (String.mk v))
        | none => b
      match extractValue ((row3.drop 4).headD []) with
      | some v => statPut c "weaknesses" (.s (String.mk v))
      | none => c
    else s2

/-- The table-line collection loop of `parse_stat_block` (with `break`). -/
def sbTableLines (creatureName : List Char) :
    List (List Char) → Bool → List (List Char)
  | [], _ => []
  | line :: rest, inTable =>
    if containsSub line creatureName && containsSub line "**".data then
      sbTableLines creatureName rest inTable
    else if containsSub line "|".data && !("> >".data.isPrefixOf (stripWS line)) then
      line :: sbTableLines creatureName rest true
    else if inTable && (stripWS line == [] || stripWS line == ['>']) then
      []
    else sbTableLines creatureName rest inTable

/-- The trait extraction loop: split on the trait pattern and pair names
with contents. -/
def sbTraits (sections : List (List Char)) : List TraitRec :=
  match sections with
  | _ :: rest =>
    let rec pairs : List (List Char) → List TraitRec
      | name :: content :: t =>
        let cleaned := stripWS (reSub reTraitBQ (fun _ => []) content)
        (if containsSub cleaned "|".data then
          { name := String.mk (stripWS name), type := "ability",
            text := String.mk cleaned }
         else
          { name := String.mk (stripWS name), type := "trait",
            text := String.mk cleaned }) :: pairs t
      | [name] =>
        [{ name := String.mk (stripWS name), type := "trait", text := "" }]
      | [] => []
    pairs rest
  | [] => []

/-- `parse_helpers.parse_stat_block`. -/
def parseStatBlock (content : String) : Option StatBlock :=
  let c := content.data
  match reSearch reSBHead c with
  | none => none
  | some m =>
    let sbName := stripWS ((mGroup c m 1).getD [])
    let startPos := m.2.1
    let tail := c.drop startPos
    let sbContent :=
      match reSearch reSBNextHead tail with
      | some mn => tail.take mn.1
      | none => tail
    let creatureName :=
      match reSearch reSBCreature sbContent with
      | some mc => stripWS ((mGroup sbContent mc 1).getD [])
      | none => sbName
    let tableLines := sbTableLines creatureName (splitNL sbContent) false
    let statTable0 :=
      if tableLines.isEmpty then none
      else some (stripWS (List.intercalate ['\n'] tableLines))
    let statTable := statTable0.map (fun t =>
      if t.isEmpty then t else reSub reBQ (fun _ => []) t)
    let traitsSection :=
      match statTable with
      | some t =>
        if t.isEmpty then sbContent
        else
          let tableEnd :=
            match findSub sbContent t with
            | some i => i + t.length
            | none => t.length - 1
          sbContent.drop tableEnd
      | none => sbContent
    let traits := sbTraits (reSplitCap reTraitSplit traitsSection)
    let stats :=
      match statTable with
      | some t => if t.isEmpty then none else some (parseStatTableFields t)
      | none => none
    some { name := String.mk creatureName,
           full_content := String.mk (stripWS sbContent),
           stat_table := (match statTable with
                          | some t => if t.isEmpty then none else some (String.mk t)
                          | none => none),
           stats := stats,
           traits := if traits.isEmpty then none else some traits }

/-! ### Ability Assembler, standalone mode — `parse_abilities.parse_ability_file`
and `parse_abilities.parse_abilities_directory`

Unreadable files are modelled as a `none` input (the `open`/`read` call is
the only effectful step; its `try/except` prints and returns `None`).
Identity fields taken from front matter are modelled as the raw `FMVal`.
A truthy non-string `item_id` (a non-empty front-matter list) makes
`re.sub(r'-\d+-\w+$', '', item_id)` raise `TypeError`; `parse_ability_file`
has no handler for it and neither does the batch loop of
`parse_abilities_directory`, so the exception aborts the whole batch —
modelled by `Except Unit` results. -/

def fmTruthy : Option FMVal → Bool
  | none => false
  | some (.s v) => v ≠ ""
  | some (.l xs) => xs ≠ []

/-- `-\d+-\w+$` — the cost suffix removed to obtain `base_id`. -/
def reBaseIdSuffix : RE :=
  rseq [rchar '-', rplus (.cls isDigitC), rchar '-', rplus (.cls isWordC), .dollar]

structure AbilityRecord where
  item_id : Option FMVal
  base_id : Option FMVal
  item_name : Option FMVal
  item_index : Option FMVal
  source : FMVal
  type : FMVal
  class_ : Option FMVal
  level : Option FMVal
  ability_type : Option FMVal
  feature_type : Option FMVal
  action : Option (Option FMVal × FMVal)
  cost : Option (FMVal × FMVal)
  targeting : Option Targeting
  flavor : Option FMVal
  power_roll : Option PowerRollA
  effects : Option EffectsMap
  persistent : Option Persistent
  component_order : Option (List String)
  stat_block : Option StatBlock
  subclass : Option FMVal
deriving DecidableEq, Repr

/-- The per-section step of the standalone component-order loop
(`parse_ability_file` lines 533–553); membership is checked directly on the
components list, and the `cost_options` label maps to a `cost` token gated
on the front-matter cost. -/
def compStepA (pe : Option EffectsMap) (hasPR hasPers hasCost : Bool)
    (comps : List String) (sec : String) : List String :=
  if sec == "trigger" then
    match pe with
    | some e => if e.trigger.isSome ∧ "trigger" ∉ comps then comps ++ ["trigger"] else comps
    | none => comps
  else if sec == "effect" then
    match pe with
    | some e =>
      if e.before.isSome ∧ "before" ∉ comps then comps ++ ["before"]
      else if e.after.isSome ∧ "after" ∉ comps then comps ++ ["after"]
      else if e.effect.isSome ∧ "effect" ∉ comps then comps ++ ["effect"]
      else comps
    | none => comps
  else if sec == "power_roll" then
    if hasPR ∧ "power_roll" ∉ comps then comps ++ ["power_roll"] else comps
  else if sec == "mark_benefit" then
    match pe with
    | some e => if e.mark_benefit.isSome ∧ "mark_benefit" ∉ comps then comps ++ ["mark_benefit"] else comps
    | none => comps
  else if sec == "strained" then
    match pe with
    | some e => if e.strained.isSome ∧ "strained" ∉ comps then comps ++ ["strained"] else comps
    | none => comps
  else if sec == "persistent" then
    if hasPers ∧ "persistent" ∉ comps then comps ++ ["persistent"] else comps
  else if sec == "cost_options" then
    if hasCost ∧ "cost" ∉ comps then comps ++ ["cost"] else comps
  else comps

/-- The fallback conservative ordering (`parse_ability_file` lines 556–572). -/
def fallbackOrderA (pe : Option EffectsMap) (hasPR hasPers : Bool) : List String :=
  let has := fun (f : EffectsMap → Option String) =>
    match pe with | some e => (f e).isSome | none => false
  (if has (·.trigger) then ["trigger"] else []) ++
  (if has (·.before) then ["before"] else []) ++
  (if hasPR then ["power_roll"] else []) ++
  (if has (·.after) then ["after"] else []) ++
  (if has (·.mark_benefit) then ["mark_benefit"] else []) ++
  (if hasPers then ["persistent"] else []) ++
  (if has (·.effect) then ["effect"] else [])

/-- Standalone component order: label positions, stable sort, the
population-conditional appends, then the fallback when nothing was found. -/
def componentOrderA (b : List Char) (pe : Option EffectsMap)
    (hasPR hasPers hasCost : Bool) : List String :=
  let comps := ((sortByPos (secPositions b)).map (·.1)).foldl
    (compStepA pe hasPR hasPers hasCost) []
  if comps.isEmpty then fallbackOrderA pe hasPR hasPers else comps

/-- The record assembly of `parse_ability_file` (after front matter
succeeded). -/
def buildAbility (fm : FMDict) (body : String) : AbilityRecord :=
  let b := body.data
  let flavorM := (reSearch reFlavorA b).bind
    (fun m => (mGroup b m 1).map (fun g => String.mk (stripWS g)))
  let flavor :=
    match flavorM with
    | some f => some (FMVal.s f)
    | none => fmGet fm "flavor"
  let power_roll := parsePowerRollTable body
  let targeting := parseTargetingTable body
  let effects := parseEffectsA body power_roll.isSome
  let persistent := parsePersistentOf b
  let stat_block := parseStatBlock body
  let item_id := fmGet fm "item_id"
  -- `base_id = item_id; if item_id: base_id = re.sub(r'-\d+-\w+$', '', item_id)`;
  -- the truthy-list case raises TypeError and is handled in `parseAbilityFile`
  -- before this function is reached, so only the scalar case applies the sub
  let base_id :=
    match item_id with
    | some (.s v) =>
      if v ≠ "" then some (FMVal.s (String.mk (reSub reBaseIdSuffix (fun _ => []) v.data)))
      else item_id
    | _ => item_id
  let action_type := fmGet fm "action_type"
  let keywords := (fmGet fm "keywords").getD (.l [])
  let action :=
    if fmTruthy action_type || fmTruthy (some keywords) then
      some (action_type, keywords)
    else none
  let cost :=
    match fmGet fm "cost_amount", fmGet fm "cost_resource" with
    | some ca, some cr => if fmTruthy (some ca) ∧ fmTruthy (some cr) then some (ca, cr) else none
    | _, _ => none
  -- the source recomputes `parse_effects` for the component order; the
  -- function is pure, so the value is the same
  let comps := componentOrderA b effects power_roll.isSome persistent.isSome cost.isSome
  { item_id, base_id,
    item_name := fmGet fm "item_name", item_index := fmGet fm "item_index",
    source := (fmGet fm "source").getD (.s "mcdm.heroes.v1"),
    type := (fmGet fm "type").getD (.s "ability"),
    class_ := fmGet fm "class", level := fmGet fm "level",
    ability_type := fmGet fm "ability_type", feature_type := fmGet fm "feature_type",
    action, cost, targeting, flavor, power_roll, effects, persistent,
    component_order := if comps.isEmpty then none else some comps,
    stat_block, subclass := fmGet fm "subclass" }

/-- `item_id` values on which `re.sub` raises `TypeError`: truthy
non-strings, i.e. non-empty front-matter lists. -/
def itemIdRaisesSub : Option FMVal → Bool
  | some (.l (_ :: _)) => true
  | _ => false

/-- `parse_abilities.parse_ability_file`: `.ok none` for an unreadable file
(the read `try/except`) and for missing/empty front matter; `.error` when
the base-id substitution raises `TypeError` on a truthy non-string
`item_id` (nothing catches it); otherwise the assembled record. -/
def parseAbilityFile (contentOpt : Option String) :
    Except Unit (Option AbilityRecord) :=
  match contentOpt with
  | none => .ok none
  | some content =>
    let fmb := extractFrontmatter content
    if fmb.1.isEmpty then .ok none
    else if itemIdRaisesSub (fmGet fmb.1 "item_id") then .error ()
    else .ok (some (buildAbility fmb.1 fmb.2))

/-- `parse_abilities.parse_abilities_directory`: parse each document,
appending only records for which the parse succeeded (a returned record
dict is never empty, so Python's truthiness test is `isSome`); the loop
has no `try/except`, so an exception from one document aborts the whole
batch. -/
def parseAbilitiesDirectory : List (Option String) → Except Unit (List AbilityRecord)
  | [] => .ok []
  | d :: rest =>
    match parseAbilityFile d with
    | .error e => .error e
    | .ok none => parseAbilitiesDirectory rest
    | .ok (some a) => (parseAbilitiesDirectory rest).map (fun l => a :: l)

/-- The parse of one document yielded a record. -/
def yieldsRecord : Except Unit (Option AbilityRecord) → Bool
  | .ok (some _) => true
  | _ => false

/-- The parse of one document raised an uncaught exception. -/
def raisedPy {α : Type} : Except Unit α → Bool
  | .error _ => true
  | .ok _ => false

/-! ### Derived predicates used by the claim theorems -/

/-- A returned effects mapping never holds `effect` together with
`before`/`after`. -/
def effectKeyExclusive : Option EffectsMap → Bool
  | none => true
  | some e => !(e.effect.isSome && (e.before.isSome || e.after.isSome))

/-- A damage type that is a bare single characteristic letter
(m/a/r/i/p, case-insensitive). -/
def bareCharLetterTy : Option String → Bool
  | none => false
  | some ty => ty.length == 1 &&
      (lowerL ty.data == ['m'] || lowerL ty.data == ['a'] || lowerL ty.data == ['r'] ||
       lowerL ty.data == ['i'] || lowerL ty.data == ['p'])

def dmgNoBareTy : Option TierDamage → Bool
  | none => true
  | some d => !bareCharLetterTy d.type

/-- No tier of an embedded power roll reports a bare characteristic letter
as its damage type. -/
def tiersNoBareTy : Option PowerRollF → Bool
  | none => true
  | some pr => pr.tiers.all (fun t => dmgNoBareTy t.damage)

/-- The damage record that a segment contributes in the standalone tier
loop when it is accepted (pre-check matched and the normalizer accepted). -/
def acceptedDamageA (part0 : List Char) : Option TierDamage :=
  let part := stripWS part0
  if hasDamageWord part ∧ (reSearch reDmgPre part).isSome then
    (parseDamageClause (String.mk part)).map mkTierDamage
  else none

/-- The effect string that a segment contributes in the standalone tier
loop (a rejected damage-like segment, or a non-empty non-damage segment). -/
def keptEffectA (part0 : List Char) : Option String :=
  let part := stripWS part0
  if hasDamageWord part then
    if (reSearch reDmgPre part).isSome ∧ (parseDamageClause (String.mk part)).isNone then
      some (String.mk part)
    else none
  else if part.isEmpty then none
  else some (String.mk part)

/-- The damage record that a segment contributes in the embedded tier loop
(no pre-check; the single-letter type fold applied). -/
def acceptedDamageF (part0 : List Char) : Option TierDamage :=
  let part := stripWS part0
  if hasDamageWord part then
    (parseDamageClause (String.mk part)).map (fun p => foldSingleLetterTy (mkTierDamage p))
  else none

/-- The effect string that a segment contributes in the embedded tier loop. -/
def keptEffectF (part0 : List Char) : Option String :=
  let part := stripWS part0
  if hasDamageWord part then
    if (parseDamageClause (String.mk part)).isNone then some (String.mk part) else none
  else if part.isEmpty then none
  else some (String.mk part)

/-- The primary branch emits a record only when the candidate formula
passes the digit/dice/characteristic/level heuristic. -/
def primaryRespectsHeuristic (p : List Char) : Bool :=
  match primaryAnalysis p, parseDamageClausePrimary p with
  | some a, some _ => formulaLooksValid a.1
  | _, _ => true

/-! ### Helper lemmas -/

theorem tierStepA_eq (st : Option TierDamage × List String) (part : List Char) :
    tierStepA st part =
      ((acceptedDamageA part).elim st.1 some, st.2 ++ (keptEffectA part).toList) := by
  unfold tierStepA acceptedDamageA keptEffectA
  by_cases hd : hasDamageWord (stripWS part)
  · simp only [hd, if_true]
    cases hp : reSearch reDmgPre (stripWS part) with
    | none => simp [hp]
    | some m =>
      cases hc : parseDamageClause (String.mk (stripWS part)) with
      | none => simp [hp, hc]
      | some p => simp [hp, hc]
  · simp only [hd]
    by_cases he : (stripWS part).isEmpty <;> simp [he]

theorem tierStepF_eq (st : Option TierDamage × List String) (part : List Char) :
    tierStepF st part =
      ((acceptedDamageF part).elim st.1 some, st.2 ++ (keptEffectF part).toList) := by
  unfold tierStepF acceptedDamageF keptEffectF
  by_cases hd : hasDamageWord (stripWS part)
  · simp only [hd, if_true]
    cases hc : parseDamageClause (String.mk (stripWS part)) with
    | none => simp [hc]
    | some p => simp [hc]
  · simp only [hd]
    by_cases he : (stripWS part).isEmpty <;> simp [he]

theorem foldl_lastState {α β : Type} (f : α → Option β)
    (step : (Option β × List String) → α → (Option β × List String))
    (g : α → Option String)
    (hstep : ∀ st x, step st x = ((f x).elim st.1 some, st.2 ++ (g x).toList)) :
    ∀ (l : List α) (st : Option β × List String),
      l.foldl step st =
        ((l.filterMap f).foldl (fun _ d => some d) st.1, st.2 ++ l.filterMap g) := by
  intro l
  induction l with
  | nil => intro st; simp
  | cons x t ih =>
    intro st
    rw [List.foldl_cons, hstep, ih]
    cases hf : f x with
    | none =>
      cases hg : g x with
      | none => simp [List.filterMap_cons, hf, hg]
      | some e => simp [List.filterMap_cons, hf, hg]
    | some d =>
      cases hg : g x with
      | none => simp [List.filterMap_cons, hf, hg]
      | some e => simp [List.filterMap_cons, hf, hg]

theorem foldl_choose_last {β : Type} :
    ∀ (xs : List β) (init : Option β),
      xs.foldl (fun _ d => some d) init = xs.getLast?.elim init some := by
  intro xs
  induction xs with
  | nil => intro init; simp
  | cons x t ih =>
    intro init
    rw [List.foldl_cons, ih]
    cases ht : t.getLast? with
    | none =>
      have : t = [] := by
        cases t with
        | nil => rfl
        | cons y u => simp [List.getLast?_cons_cons] at ht
      subst this; simp
    | some d =>
      have : (x :: t).getLast? = some d := by
        cases t with
        | nil => simp [List.getLast?] at ht
        | cons y u => rw [List.getLast?_cons_cons]; exact ht
      simp [this, ht]

theorem foldSingleLetterTy_noBare (td : TierDamage) :
    bareCharLetterTy (foldSingleLetterTy td).type = false := by
  unfold foldSingleLetterTy
  cases hty : td.type with
  | none => simp [hty, bareCharLetterTy]
  | some ty =>
    by_cases h : (ty.length == 1 &&
        (lowerL ty.data == ['m'] || lowerL ty.data == ['a'] || lowerL ty.data == ['r'] ||
         lowerL ty.data == ['i'] || lowerL ty.data == ['p'])) = true
    · simp only [h, if_true]
      simp [bareCharLetterTy]
    · simp only [h, if_false, Bool.false_eq_true]
      simp only [bareCharLetterTy, hty]
      exact Bool.not_eq_true _ ▸ (by simpa using h)

theorem tierDamageEffectsF_noBare (rt : List Char) :
    dmgNoBareTy (tierDamageEffectsF rt).1 = true := by
  unfold tierDamageEffectsF
  rw [foldl_lastState acceptedDamageF tierStepF keptEffectF tierStepF_eq]
  rw [foldl_choose_last]
  cases h : ((splitOnChar ';' rt).filterMap acceptedDamageF).getLast? with
  | none => simp [dmgNoBareTy]
  | some d =>
    have hd : d ∈ (splitOnChar ';' rt).filterMap acceptedDamageF := by
      obtain ⟨hne, heq⟩ := List.mem_getLast?_eq_getLast (Option.mem_def.mpr h)
      exact heq ▸ List.getLast_mem hne
    obtain ⟨part, _, hpart⟩ := List.mem_filterMap.mp hd
    unfold acceptedDamageF at hpart
    simp only at hpart
    split at hpart
    · obtain ⟨p, _, rfl⟩ := Option.map_eq_some'.mp hpart
      simp [dmgNoBareTy, foldSingleLetterTy_noBare]
    · exact absurd hpart (by simp)

/-- The invariant of the component-order accumulation: the emitted list has
no duplicates and every emitted token is recorded in the `added` set. -/
def compInv (st : List String × List String) : Prop :=
  st.1.Nodup ∧ ∀ x ∈ st.1, x ∈ st.2

theorem addIfNew_inv {st : List String × List String} (x : String)
    (h : compInv st) : compInv (addIfNew st x) := by
  unfold addIfNew
  split_ifs with hx
  · exact h
  · constructor
    · simp only [List.nodup_append, List.nodup_singleton]
      refine ⟨h.1, by simp, ?_⟩
      intro y hy hy2
      simp only [List.mem_singleton] at hy2
      exact hx (hy2 ▸ h.2 y hy)
    · intro y hy
      rcases List.mem_append.mp hy with h1 | h1
      · exact List.mem_cons_of_mem _ (h.2 y h1)
      · simp only [List.mem_singleton] at h1
        exact h1 ▸ List.mem_cons_self _ _

theorem compStepF_inv (pe : Option EffectsMap) (st : List String × List String)
    (sec : String) (h : compInv st) : compInv (compStepF pe st sec) := by
  unfold compStepF
  repeat' split
  all_goals
    first
      | exact h
      | exact addIfNew_inv _ h
      | exact addIfNew_inv _ (addIfNew_inv _ h)

theorem foldl_compStepF_inv (pe : Option EffectsMap) :
    ∀ (secs : List String) (st : List String × List String),
      compInv st → compInv (secs.foldl (compStepF pe) st) := by
  intro secs
  induction secs with
  | nil => intro st h; exact h
  | cons s t ih => intro st h; exact ih _ (compStepF_inv pe st s h)

theorem componentOrderF_nodup (t : List Char) (pe : Option EffectsMap) :
    (componentOrderF t pe).Nodup := by
  unfold componentOrderF
  exact (foldl_compStepF_inv pe _ ([], []) ⟨List.nodup_nil, by simp⟩).1

theorem mem_ite_nil_iff (x y : String) (c : Prop) [Decidable c] :
    (x ∈ (if c then [y] else [])) ↔ (c ∧ x = y) := by
  split_ifs with h <;> simp [h]

/-! ### Claim theorems -/

/-- C8: tier-range classification is total — for every range string both
the standalone and the embedded classifier return exactly one label from
the closed set weak/average/strong/unknown, with "≤11" classified weak,
"12-16" average, "17+" strong, and an unmatched string such as "foo"
unknown. -/
theorem claim_C8_tier_classification_total :
    (∀ s : List Char, classifyRangeA s = "weak" ∨ classifyRangeA s = "average" ∨
      classifyRangeA s = "strong" ∨ classifyRangeA s = "unknown") ∧
    (∀ s : List Char, classifyRangeF s = "weak" ∨ classifyRangeF s = "average" ∨
      classifyRangeF s = "strong" ∨ classifyRangeF s = "unknown") ∧
    classifyRangeA "≤11".data = "weak" ∧ classifyRangeA "12-16".data = "average" ∧
    classifyRangeA "17+".data = "strong" ∧ classifyRangeA "foo".data = "unknown" ∧
    classifyRangeF "≤11".data = "weak" ∧ classifyRangeF "12-16".data = "average" ∧
    classifyRangeF "17+".data = "strong" ∧ classifyRangeF "foo".data = "unknown" := by
  refine ⟨fun s => ?_, fun s => ?_, ?_, ?_, ?_, ?_, ?_, ?_, ?_, ?_⟩
  · unfold classifyRangeA; split_ifs <;> simp
  · unfold classifyRangeF; split_ifs <;> simp
  all_goals decide

/-- C5: the Power Roll Segmenter returns `none` exactly when no
"Power Roll + X:" marker exists or when zero tier bullets are recovered
after the marker; whenever the result is non-`none`, its tier list is the
recovered one and is non-empty. -/
theorem claim_C5_power_roll_none_iff :
    ∀ content : String,
      match parsePowerRollTable content, reSearch reMarker content.data with
      | some pr, some m =>
          pr.tiers = tiersFromA (prSectionContent content.data m.2.1) ∧
          pr.tiers.isEmpty = false
      | some _, none => False
      | none, some m => (tiersFromA (prSectionContent content.data m.2.1)).isEmpty = true
      | none, none => True := by
  intro content
  cases h : reSearch reMarker content.data with
  | none => simp only [parsePowerRollTable, h]
  | some m =>
    simp only [parsePowerRollTable, h]
    split_ifs with ht
    · simpa [List.isEmpty_iff] using ht
    · simp [List.isEmpty_iff, ht]

/-- C4: for power-roll abilities, neither effect extractor ever returns a
mapping holding `effect` together with `before` or `after`: the extractor's
before/after pair is passed through the renaming rule, which renames a
single found side to `effect` and keeps both keys only when both sides were
found. -/
theorem claim_C4_effect_key_exclusive :
    ∀ content : String,
      effectKeyExclusive (parseEffectsA content true) = true ∧
      effectKeyExclusive (parseAbilityEffectsF content true) = true ∧
      (match parseEffectsA content true with
       | none => True
       | some e => (e.before, e.after, e.effect) =
           renameBE (searchG1strip reBefore content.data)
             (searchG1strip reAfterA content.data)) ∧
      (match parseAbilityEffectsF content true with
       | none => True
       | some e => (e.before, e.after, e.effect) =
           renameBE (searchG1strip reBefore content.data)
             (searchG1strip reAfterF content.data)) := by
  intro content
  refine ⟨?_, ?_, ?_, ?_⟩
  · cases hb : searchG1strip reBefore content.data <;>
      cases ha : searchG1strip reAfterA content.data <;>
        (simp only [parseEffectsA, renameBE, hb, ha]; split_ifs <;>
          simp [effectKeyExclusive])
  · cases hb : searchG1strip reBefore content.data <;>
      cases ha : searchG1strip reAfterF content.data <;>
        (simp only [parseAbilityEffectsF, renameBE, hb, ha]; split_ifs <;>
          simp [effectKeyExclusive])
  · cases hb : searchG1strip reBefore content.data <;>
      cases ha : searchG1strip reAfterA content.data <;>
        (simp only [parseEffectsA, renameBE, hb, ha]; split_ifs <;> simp)
  · cases hb : searchG1strip reBefore content.data <;>
      cases ha : searchG1strip reAfterF content.data <;>
        (simp only [parseAbilityEffectsF, renameBE, hb, ha]; split_ifs <;> simp)

/-- C10: in embedded mode a parsed single-letter damage type (m/a/r/i/p,
case-insensitive) is folded into the damage formula (appended upper-cased,
type set to `None`), so no embedded-ability tier ever reports a bare single
characteristic letter as its damage type. -/
theorem claim_C10_single_letter_type_folded :
    (∀ content : String, tiersNoBareTy (parseAbilityPowerRoll content) = true) ∧
    (∀ d : TierDamage,
      foldSingleLetterTy d =
        if bareCharLetterTy d.type then
          { formula := String.mk (stripWS (d.formula.data ++ ' ' :: upperL ((d.type.getD "").data))),
            type := none, characteristics := d.characteristics }
        else d) := by
  constructor
  · intro content
    cases h : reSearch reMarker content.data with
    | none => simp [parseAbilityPowerRoll, h, tiersNoBareTy]
    | some m =>
      simp only [parseAbilityPowerRoll, h]
      split_ifs with ht
      · simp [tiersNoBareTy]
      · simp only [tiersNoBareTy, List.all_eq_true]
        intro t htm
        simp only [tiersFromF, List.mem_map] at htm
        obtain ⟨tm, _, rfl⟩ := htm
        exact tierDamageEffectsF_noBare _
  · intro d
    cases hty : d.type with
    | none => simp [foldSingleLetterTy, hty, bareCharLetterTy]
    | some ty =>
      by_cases h : (ty.length == 1 &&
          (lowerL ty.data == ['m'] || lowerL ty.data == ['a'] || lowerL ty.data == ['r'] ||
           lowerL ty.data == ['i'] || lowerL ty.data == ['p'])) = true
      · simp [foldSingleLetterTy, hty, bareCharLetterTy, h]
      · simp [foldSingleLetterTy, hty, bareCharLetterTy, h]

/-- C1 counterexample: in the tier result "3 damage; 5 damage" both
segments are accepted by the normalizer; the claim predicts damage "3" with
"5 damage" demoted to an effect, but the code lets the second accepted
segment overwrite the first — the parsed tier carries damage "5" and no
effects. -/
theorem claim_C1_counterexample :
    parsePowerRollTable "**Power Roll + Might:**\n- **≤11:** 3 damage; 5 damage" =
      some { characteristic := "Might", conditional := none,
             tiers := [{ tier := "weak", range := "≤11",
                         damage := some { formula := "5", type := none,
                                          characteristics := none },
                         effects := [] }] } ∧
    tierDamageEffectsA ("3 damage; 5 damage".data) =
      (some { formula := "5", type := none, characteristics := none }, []) := by
  constructor
  · decide
  · decide

/-- C1 amended: within a tier result, each accepted damage segment
overwrites the previously stored damage — the LAST accepted segment wins
and accepted segments are never appended to effects; rejected damage-like
segments and non-empty non-damage segments are appended to effects in
original order (in standalone mode a damage-like segment failing the
pre-check regex is dropped).  Both tier loops are characterised. -/
theorem claim_C1_amended_last_accepted_wins :
    ∀ resultText : List Char,
      tierDamageEffectsA resultText =
        (((splitOnChar ';' resultText).filterMap acceptedDamageA).getLast?,
          (splitOnChar ';' resultText).filterMap keptEffectA) ∧
      tierDamageEffectsF resultText =
        (((splitOnChar ';' resultText).filterMap acceptedDamageF).getLast?,
          (splitOnChar ';' resultText).filterMap keptEffectF) := by
  intro resultText
  constructor
  · unfold tierDamageEffectsA
    rw [foldl_lastState acceptedDamageA tierStepA keptEffectA tierStepA_eq]
    rw [foldl_choose_last]
    cases ((splitOnChar ';' resultText).filterMap acceptedDamageA).getLast? <;> simp
  · unfold tierDamageEffectsF
    rw [foldl_lastState acceptedDamageF tierStepF keptEffectF tierStepF_eq]
    rw [foldl_choose_last]
    cases ((splitOnChar ';' resultText).filterMap acceptedDamageF).getLast? <;> simp

/-- C2 counterexample: the secondary "<Type> damage equal to <expr>"
pattern emits a damage record whose formula "the sun" contains no digit,
dice expression, characteristic letter, or the word "level" — refuting the
claim that a record is returned only if the candidate formula passes that
heuristic. -/
theorem claim_C2_counterexample :
    parseDamageClause "cold damage equal to the sun" =
      some { formula := "the sun", type := some "cold", characteristics := none } ∧
    formulaLooksValid ("the sun".data) = false := by
  constructor
  · decide
  · decide

/-- C2 amended: the PRIMARY pattern of the Damage Clause Normalizer emits a
record only if the candidate formula passes the digit/dice/characteristic/
"level" heuristic (the secondary "damage equal to" pattern is exempt); a
clause rejected by both patterns, such as "resistance to all damage",
yields `none` and is retained by both tier parsers as a plain effect
string rather than dropped. -/
theorem claim_C2_amended_primary_heuristic :
    (∀ part : String, primaryRespectsHeuristic part.data = true) ∧
    parseDamageClause "resistance to all damage" = none ∧
    tierDamageEffectsA ("resistance to all damage".data) =
      (none, ["resistance to all damage"]) ∧
    tierDamageEffectsF ("resistance to all damage".data) =
      (none, ["resistance to all damage"]) := by
  refine ⟨?_, by decide, by decide, by decide⟩
  intro part
  unfold primaryRespectsHeuristic parseDamageClausePrimary
  cases ha : primaryAnalysis part.data with
  | none => simp
  | some a =>
    by_cases hv : formulaLooksValid a.1 <;> simp [hv]

/-- C3 counterexample: for the embedded ability body "**Mark Benefit:**"
the label is found but no `mark_benefit` component is populated (the
effects mapping is absent entirely), yet `component_order` still lists
`mark_benefit` — an absent key appears in the order list. -/
theorem claim_C3_counterexample :
    (parseEmbeddedAbility "**Mark Benefit:**" "X").component_order = ["mark_benefit"] ∧
    (parseEmbeddedAbility "**Mark Benefit:**" "X").effects = none := by
  constructor
  · decide
  · decide

/-- C3 amended: every token appears at most once in an embedded ability's
`component_order` (the added-set guard deduplicates), but the list is not
population-exact: the embedded parser emits `power_roll`, `mark_benefit`,
`persistent` and `cost_options` tokens from label positions without
checking that the component was populated. -/
theorem claim_C3_amended_component_order_nodup :
    ∀ (abilityText abilityName : String),
      ((parseEmbeddedAbility abilityText abilityName).component_order).Nodup := by
  intro abilityText abilityName
  simp only [parseEmbeddedAbility]
  exact componentOrderF_nodup _ _

/-- C6 counterexample: for the same body the two modes disagree on the
tier damage record — the standalone parser reports formula "2 +" with type
"m" while the embedded parser folds the single-letter type into the
formula, reporting "2 + M" with no type. -/
theorem claim_C6_counterexample :
    parsePowerRollTable "**Power Roll + Might:**\n- **≤11:** 2 + M damage" =
      some { characteristic := "Might", conditional := none,
             tiers := [{ tier := "weak", range := "≤11",
                         damage := some { formula := "2 +", type := some "m",
                                          characteristics := none },
                         effects := [] }] } ∧
    parseAbilityPowerRoll "**Power Roll + Might:**\n- **≤11:** 2 + M damage" =
      some { characteristic := "Might",
             tiers := [{ tier := "weak", range := "≤11",
                         damage := some { formula := "2 + M", type := none,
                                          characteristics := none },
                         effects := [] }] } := by
  constructor
  · decide
  · decide

/-- C6 amended: the two modes share the tier-range classification (the two
classifiers agree on every range string) and treat non-damage segments
identically, but they are not extensionally identical — the embedded tier
loop folds single-letter damage types into the formula, so the same body
can yield different tier damage records. -/
theorem claim_C6_amended_partial_agreement :
    (∀ s : List Char, classifyRangeA s = classifyRangeF s) ∧
    (∀ (st : Option TierDamage × List String) (part : List Char),
      hasDamageWord (stripWS part) = true ∨ tierStepA st part = tierStepF st part) := by
  constructor
  · intro s; rfl
  · intro st part
    by_cases h : hasDamageWord (stripWS part) = true
    · exact Or.inl h
    · refine Or.inr ?_
      rw [tierStepA_eq, tierStepF_eq]
      unfold acceptedDamageA keptEffectA acceptedDamageF keptEffectF
      simp only [h]
      simp [Bool.false_eq_true] at h
      simp [h]

/-- C7 counterexample: for an embedded ability with no Spend clause and no
sections at all, the returned record contains only the `name` key — the
fields `cost_options`, `effects`, `power_roll`, `persistent` are absent
entirely rather than present with `[]`/`None`. -/
theorem claim_C7_counterexample :
    embeddedKeys (parseEmbeddedAbility "just text" "Name") = ["name"] := by
  decide

/-- C7 amended: the final cleanup of the embedded assembler drops
`None`/`[]`/`""` values, so absent sections are omitted from the record:
`cost_options` is a key of the returned record exactly when at least one
Spend clause parsed, and `power_roll`/`effects`/`persistent` are keys
exactly when the corresponding section was found. -/
theorem claim_C7_amended_absent_keys_omitted :
    ∀ (text name : String),
      (("cost_options" ∈ embeddedKeys (parseEmbeddedAbility text name)) ↔
        (parseEmbeddedAbility text name).cost_options.isEmpty = false) ∧
      (("power_roll" ∈ embeddedKeys (parseEmbeddedAbility text name)) ↔
        (parseEmbeddedAbility text name).power_roll.isSome = true) ∧
      (("effects" ∈ embeddedKeys (parseEmbeddedAbility text name)) ↔
        (parseEmbeddedAbility text name).effects.isSome = true) ∧
      (("persistent" ∈ embeddedKeys (parseEmbeddedAbility text name)) ↔
        (parseEmbeddedAbility text name).persistent.isSome = true) := by
  intro text name
  generalize parseEmbeddedAbility text name = a
  refine ⟨?_, ?_, ?_, ?_⟩ <;>
    simp [embeddedKeys, List.mem_append, mem_ite_nil_iff,
      show ("cost_options" : String) ≠ "name" from by decide,
      show ("cost_options" : String) ≠ "flavor_text" from by decide,
      show ("cost_options" : String) ≠ "action_type" from by decide,
      show ("cost_options" : String) ≠ "keywords" from by decide,
      show ("cost_options" : String) ≠ "distance" from by decide,
      show ("cost_options" : String) ≠ "target" from by decide,
      show ("cost_options" : String) ≠ "power_roll" from by decide,
      show ("cost_options" : String) ≠ "effects" from by decide,
      show ("cost_options" : String) ≠ "persistent" from by decide,
      show ("cost_options" : String) ≠ "component_order" from by decide,
      show ("power_roll" : String) ≠ "name" from by decide,
      show ("power_roll" : String) ≠ "flavor_text" from by decide,
      show ("power_roll" : String) ≠ "action_type" from by decide,
      show ("power_roll" : String) ≠ "keywords" from by decide,
      show ("power_roll" : String) ≠ "distance" from by decide,
      show ("power_roll" : String) ≠ "target" from by decide,
      show ("power_roll" : String) ≠ "cost_options" from by decide,
      show ("power_roll" : String) ≠ "effects" from by decide,
      show ("power_roll" : String) ≠ "persistent" from by decide,
      show ("power_roll" : String) ≠ "component_order" from by decide,
      show ("effects" : String) ≠ "name" from by decide,
      show ("effects" : String) ≠ "flavor_text" from by decide,
      show ("effects" : String) ≠ "action_type" from by decide,
      show ("effects" : String) ≠ "keywords" from by decide,
      show ("effects" : String) ≠ "distance" from by decide,
      show ("effects" : String) ≠ "target" from by decide,
      show ("effects" : String) ≠ "cost_options" from by decide,
      show ("effects" : String) ≠ "power_roll" from by decide,
      show ("effects" : String) ≠ "persistent" from by decide,
      show ("effects" : String) ≠ "component_order" from by decide,
      show ("persistent" : String) ≠ "name" from by decide,
      show ("persistent" : String) ≠ "flavor_text" from by decide,
      show ("persistent" : String) ≠ "action_type" from by decide,
      show ("persistent" : String) ≠ "keywords" from by decide,
      show ("persistent" : String) ≠ "distance" from by decide,
      show ("persistent" : String) ≠ "target" from by decide,
      show ("persistent" : String) ≠ "cost_options" from by decide,
      show ("persistent" : String) ≠ "power_roll" from by decide,
      show ("persistent" : String) ≠ "effects" from by decide,
      show ("persistent" : String) ≠ "component_order" from by decide]

/-- C9 counterexample: a document whose front matter parses but whose body
has zero recoverable sections is NOT skipped — the standalone parser
returns a (sparse) record for it rather than `None`; and a document whose
front matter carries a list-valued `item_id` makes the parser raise
(`TypeError` in the base-id substitution), uncaught by the batch loop —
refuting both the "returns None" and the "does not raise" parts. -/
theorem claim_C9_counterexample :
    yieldsRecord (parseAbilityFile (some "---\nitem_id: x\n---\nhello")) = true ∧
    raisedPy (parseAbilityFile (some "---\nitem_id:\n- a\n---\nhello")) = true ∧
    raisedPy (parseAbilitiesDirectory [some "---\nitem_id:\n- a\n---\nhello"]) = true := by
  refine ⟨by decide, by decide, by decide⟩

/-- C9 amended: an unreadable document or one whose front matter is missing
or parses empty (including when the fallback front-matter parser raises and
its handler returns the empty mapping) yields `None` from the standalone
parser — and only those do; the batch caller contributes nothing for such
documents and continues with the rest.  A document with front matter but
zero recoverable sections is NOT skipped: a sparse record is emitted for
it — unless its front matter holds a truthy non-string `item_id`, in which
case the parser raises (`TypeError` in the base-id substitution) and the
uncaught exception aborts the whole batch. -/
theorem claim_C9_amended_failure_semantics :
    parseAbilityFile none = .ok none ∧
    (∀ content : String,
      (parseAbilityFile (some content) = .ok none) ↔
        (extractFrontmatter content).1.isEmpty = true) ∧
    (∀ content : String,
      raisedPy (parseAbilityFile (some content)) =
        (!(extractFrontmatter content).1.isEmpty &&
          itemIdRaisesSub (fmGet (extractFrontmatter content).1 "item_id"))) ∧
    (∀ (d : Option String) (docs : List (Option String)),
      match parseAbilityFile d with
      | .ok none => parseAbilitiesDirectory (d :: docs) = parseAbilitiesDirectory docs
      | .ok (some a) =>
          parseAbilitiesDirectory (d :: docs) =
            (parseAbilitiesDirectory docs).map (fun l => a :: l)
      | .error e => parseAbilitiesDirectory (d :: docs) = Except.error e) := by
  refine ⟨rfl, ?_, ?_, ?_⟩
  · intro content
    simp only [parseAbilityFile]
    split_ifs with h1 h2 <;> simp [h1]
  · intro content
    simp only [parseAbilityFile]
    split_ifs with h1 h2 <;> simp_all [raisedPy]
  · intro d docs
    cases h : parseAbilityFile d with
    | error e => simp [parseAbilitiesDirectory, h]
    | ok r => cases r <;> simp [parseAbilitiesDirectory, h]

end DrawSteel

